import Mathlib

/-!
Shallow embedding of `src/src/lib/layer-manager.js` (deck.gl LayerManager).

The file models the reconciliation / lifecycle engine of the layer manager:

* identity-based matching of the new layer forest against the previous one
  (`_matchLayers` / `_matchSublayers`),
* state transfer between matched layers (`_transferLayerState`),
* the initialize / update / finalize phases
  (`_initializeNewLayer(s)`, `_updateMatchedLayers`, `_finalizeOldLayers`),
* the viewport context tracker (`setContext`),
* the redraw tracker (`needsRedraw`).

JavaScript objects with identity are modelled as records threaded through an
explicit pass state; object identity of `state` payloads is modelled by Nat
tokens into an explicit state heap; exceptions are modelled by `Option` /
`Except` error values.  Lifecycle callbacks live in user layer subclasses
outside this file, so each layer carries a behaviour record (`Beh`) saying
whether a given callback throws; the callback invocations themselves are
recorded in an event trace.  Logging (`log`, `log.once`) is diagnostic only
and is not modelled.  The `layer.context = this.context` assignments and the
gl/uniform payloads are opaque external data and are likewise not modelled.
-/

namespace LayerManager

/-- Behaviour of the externally supplied lifecycle callbacks of one layer:
whether `initializeLayer`, `updateLayer`, `renderLayers` or `finalizeLayer`
throws when invoked, and whether a freshly initialized state carries a
`model` object. -/
structure Beh where
  initThrows : Bool := false
  updateThrows : Bool := false
  renderThrows : Bool := false
  finalizeThrows : Bool := false
  initModel : Bool := false
deriving DecidableEq, Repr

/-- Reference to a layer object: an index into the old-layer list, an index
into the generated-layer list (in discovery order), or a pointer left over
from before the modelled pass. -/
inductive LayerRef where
  | oldL : Nat → LayerRef
  | newL : Nat → LayerRef
  | ext : LayerRef
deriving DecidableEq, Repr

/-- State payload object (`layer.state` in the source): carries the back
pointer `state.layer`, and optionally a `state.model` whose
`userData.layer` back pointer is also tracked. -/
structure StateObj where
  layer : LayerRef
  hasModel : Bool
  modelLayer : LayerRef
deriving DecidableEq, Repr

/-- A layer object as seen by the manager: `id`, `props`, the behaviour of
its callbacks, the `oldProps` field set by `_transferLayerState`, and the
`state` field holding the token of its state object (or none). -/
structure LayerObj where
  id : Nat
  props : Nat
  beh : Beh
  oldProps : Option Nat := none
  state : Option Nat := none
deriving DecidableEq, Repr

/-- Errors thrown inside the pass: the two `assert` calls of
`_transferLayerState` (state missing, old layer identical to new layer) and
a throwing lifecycle callback, tagged with the layer id. -/
inductive JSError where
  | assertNoState : Nat → JSError
  | initErr : Nat → JSError
  | updateErr : Nat → JSError
  | finalizeErr : Nat → JSError
  | renderErr : Nat → JSError
deriving DecidableEq, Repr

/-- Trace events: one entry per actual invocation of a lifecycle callback
(`initializeLayer`, `updateLayer`, `finalizeLayer`), tagged with the layer
id; the event is recorded even when the callback then throws. -/
inductive Event where
  | initEv : Nat → Event
  | updateEv : Nat → Event
  | finalizeEv : Nat → Event
deriving DecidableEq, Repr

def Event.isInit : Event → Bool
  | Event.initEv _ => true
  | _ => false

def Event.isUpdate : Event → Bool
  | Event.updateEv _ => true
  | _ => false

def Event.isFinalize : Event → Bool
  | Event.finalizeEv _ => true
  | _ => false

mutual
/-- A new layer descriptor handed to `updateLayers`: id, props, callback
behaviour, and the sublayers its `renderLayers` callback returns (empty for
a `null` return; the source wraps a single layer in an array and filters
out null entries, which is the identity on the forests modelled here). -/
inductive NewLayer where
  | node (id : Nat) (props : Nat) (beh : Beh) (children : NewForest)

/-- A forest of new layer descriptors (a strict list; modelled as a mutual
inductive so that the matcher is structurally recursive). -/
inductive NewForest where
  | nil
  | cons (n : NewLayer) (rest : NewForest)
end

def NewLayer.id : NewLayer → Nat
  | NewLayer.node i _ _ _ => i

def NewLayer.props : NewLayer → Nat
  | NewLayer.node _ p _ _ => p

def NewLayer.beh : NewLayer → Beh
  | NewLayer.node _ _ b _ => b

def NewLayer.children : NewLayer → NewForest
  | NewLayer.node _ _ _ c => c

/-- The old-layer lookup `oldLayerMap`, as an association list from id to
either `some i` (old layer at index `i`, available) or `none` (the slot was
consumed: `oldLayerMap[id] = null`).  A missing key models a JavaScript
`undefined` entry. -/
def lookupMap : List (Nat × Option Nat) → Nat → Option (Option Nat)
  | [], _ => none
  | (k, v) :: rest, id => if k = id then some v else lookupMap rest id

def setMap : List (Nat × Option Nat) → Nat → Option Nat → List (Nat × Option Nat)
  | [], id, v => [(id, v)]
  | (k, w) :: rest, id, v =>
    if k = id then (id, v) :: rest else (k, w) :: setMap rest id v

def lookupStates : List (Nat × StateObj) → Nat → Option StateObj
  | [], _ => none
  | (t, s) :: rest, tok => if t = tok then some s else lookupStates rest tok

/-- Re-point the back pointers of the state object with token `tok`:
`state.layer = newLayer` and, when a model is present,
`state.model.userData.layer = newLayer`. -/
def setStateLayer : List (Nat × StateObj) → Nat → LayerRef → List (Nat × StateObj)
  | [], _, _ => []
  | (t, s) :: rest, tok, r =>
    if t = tok then
      (t, { s with layer := r, modelLayer := if s.hasModel then r else s.modelLayer }) :: rest
    else (t, s) :: setStateLayer rest tok r

/-- Mutable state of one reconciliation pass: the (mutated) old layers, the
`oldLayerMap`, the `generatedLayers` accumulator in discovery order, the
heap of state objects, a fresh-token counter, and the trace of lifecycle
callback invocations. -/
structure PassSt where
  olds : List LayerObj
  oldMap : List (Nat × Option Nat)
  gens : List LayerObj
  states : List (Nat × StateObj)
  nextTok : Nat
  events : List Event
deriving Repr

/-- Embedding of `_matchLayers` map construction: walk the old layers and
record `id -> oldLayer`; when the id is already present, only the
duplicate-id warning is logged and the existing entry is kept. -/
def mkOldLayerMapGo : Nat → List LayerObj → List (Nat × Option Nat) → List (Nat × Option Nat)
  | _, [], m => m
  | i, ol :: rest, m =>
    if (lookupMap m ol.id).isSome then mkOldLayerMapGo (i + 1) rest m
    else mkOldLayerMapGo (i + 1) rest (setMap m ol.id (some i))

def mkOldLayerMap (olds : List LayerObj) : List (Nat × Option Nat) :=
  mkOldLayerMapGo 0 olds []

/-- Pre-existing state objects of the old layers, with back pointers to
their owners (established by the pass that created them). -/
def initialStates (olds : List LayerObj) : List (Nat × StateObj) :=
  olds.enum.filterMap fun p =>
    p.2.state.map fun tok =>
      (tok, { layer := LayerRef.oldL p.1, hasModel := p.2.beh.initModel,
              modelLayer := LayerRef.oldL p.1 })

def nextFreeTok (olds : List LayerObj) : Nat :=
  olds.foldl (fun a ol => match ol.state with | some t => max a (t + 1) | none => a) 0

def mkInitSt (olds : List LayerObj) : PassSt :=
  { olds := olds, oldMap := [], gens := [], states := initialStates olds,
    nextTok := nextFreeTok olds, events := [] }

/-- Embedding of `_transferLayerState(oldLayer, newLayer)` for the old
layer at index `i` and the in-flight new layer `g` (to be pushed at index
`nidx`).  `assert(state)` throws when the old layer has no state; the
second assert, `oldLayer !== newLayer`, can never fire in this embedding
because old layer records and new layer descriptors are distinct values.
On success: `newLayer.state = state`, `state.layer = newLayer`, the model
back pointer is re-pointed, `newLayer.oldProps = props`, and
`oldLayer.state = null`. -/
def transferLayerState (st : PassSt) (i : Nat) (nidx : Nat) (g : LayerObj) :
    Except JSError (PassSt × LayerObj) :=
  match st.olds[i]? with
  | none => Except.error (JSError.assertNoState g.id)
  | some ol =>
    match ol.state with
    | none => Except.error (JSError.assertNoState g.id)
    | some tok =>
      let g' := { g with state := some tok, oldProps := some ol.props }
      let states' := setStateLayer st.states tok (LayerRef.newL nidx)
      let olds' := st.olds.set i { ol with state := none }
      Except.ok ({ st with olds := olds', states := states' }, g')

/-- Embedding of `_initializeNewLayer(layer)` for the layer `g` living (or
about to live) at index `nidx` of `generatedLayers`.  When the layer
already has state nothing happens.  Otherwise `initializeLayer` is invoked
(recorded in the trace); a throw is caught and returned as this layer
error; on success the callback creates a fresh state object and the code
then sets the `state.layer` and `state.model.userData.layer` back
pointers. -/
def initializeNewLayer (st : PassSt) (nidx : Nat) (g : LayerObj) :
    Option JSError × PassSt × LayerObj :=
  match g.state with
  | some _ => (none, st, g)
  | none =>
    let st1 := { st with events := st.events ++ [Event.initEv g.id] }
    if g.beh.initThrows then
      (some (JSError.initErr g.id), st1, g)
    else
      let tok := st1.nextTok
      let sobj : StateObj :=
        { layer := LayerRef.newL nidx, hasModel := g.beh.initModel,
          modelLayer := LayerRef.newL nidx }
      ( none,
        { st1 with states := (tok, sobj) :: st1.states, nextTok := tok + 1 },
        { g with state := some tok } )

mutual
/-- Body of the `for (const newLayer of newLayers)` loop of
`_matchSublayers`, i.e. the per-layer `try { ... } catch` block: look the
id up in `oldLayerMap`, consume the slot (`oldLayerMap[id] = null`),
transfer state when an old layer was found, attempt initialization (the
returned error is discarded by the source at this call site), push the
layer onto `generatedLayers`, then call `renderLayers` and recurse into the
produced sublayers (the error returned by the recursive call is discarded
by the source).  The first value thrown inside the block is returned as
this layer error; mutations performed before the throw persist. -/
def matchSingleLayer (n : NewLayer) (st : PassSt) : Option JSError × PassSt :=
  match n with
  | NewLayer.node nid nprops nbeh nch =>
    let oldEntry := lookupMap st.oldMap nid
    let stc := { st with oldMap := setMap st.oldMap nid none }
    let g0 : LayerObj := { id := nid, props := nprops, beh := nbeh }
    let tr : Except JSError (PassSt × LayerObj) :=
      match oldEntry with
      | some (some i) => transferLayerState stc i stc.gens.length g0
      | _ => Except.ok (stc, g0)
    match tr with
    | Except.error e => (some e, stc)
    | Except.ok (st2, g1) =>
      let r := initializeNewLayer st2 st2.gens.length g1
      let st4 := { r.2.1 with gens := r.2.1.gens ++ [r.2.2] }
      if nbeh.renderThrows then (some (JSError.renderErr nid), st4)
      else
        let sub := matchSublayers nch st4
        (none, sub.2)

/-- Embedding of `_matchSublayers`: process the new layers in order,
keeping the first error raised by any per-layer block
(`error = error || err`). -/
def matchSublayers (ns : NewForest) (st : PassSt) : Option JSError × PassSt :=
  match ns with
  | NewForest.nil => (none, st)
  | NewForest.cons n rest =>
    let r1 := matchSingleLayer n st
    let r2 := matchSublayers rest r1.2
    (r1.1 <|> r2.1, r2.2)
end

/-- Embedding of `_matchLayers(oldLayers, newLayers)`: build the
old-layer map, then run `_matchSublayers` on the new forest. -/
def matchLayers (news : NewForest) (st : PassSt) : Option JSError × PassSt :=
  matchSublayers news { st with oldMap := mkOldLayerMap st.olds }

/-- Embedding of `_finalizeLayer(layer)`: when the layer still has state,
invoke `finalizeLayer` (recorded in the trace), catch a throw, and clear
`layer.state` whether or not the callback threw. -/
def finalizeLayer (ol : LayerObj) : Option JSError × LayerObj × List Event :=
  match ol.state with
  | none => (none, ol, [])
  | some _ =>
    let err := if ol.beh.finalizeThrows then some (JSError.finalizeErr ol.id) else none
    (err, { ol with state := none }, [Event.finalizeEv ol.id])

/-- Embedding of the `_finalizeOldLayers` loop.  The accumulator mirrors
`error = error || this._finalizeLayer(layer)`: because `||` short
circuits, once an error has been recorded `_finalizeLayer` is not invoked
for the remaining layers. -/
def finalizeOldLayersAux : Option JSError → List LayerObj →
    Option JSError × List LayerObj × List Event
  | err, [] => (err, [], [])
  | some e, ol :: rest =>
    let r := finalizeOldLayersAux (some e) rest
    (r.1, ol :: r.2.1, r.2.2)
  | none, ol :: rest =>
    let f := finalizeLayer ol
    let r := finalizeOldLayersAux f.1 rest
    (r.1, f.2.1 :: r.2.1, f.2.2 ++ r.2.2)

def finalizeOldLayers (olds : List LayerObj) : Option JSError × List LayerObj × List Event :=
  finalizeOldLayersAux none olds

/-- Embedding of `_updateLayer(layer)`: when `oldProps` is set (the layer
was matched), invoke `updateLayer` (recorded in the trace) and catch a
throw. -/
def updateLayer (g : LayerObj) : Option JSError × List Event :=
  match g.oldProps with
  | none => (none, [])
  | some _ =>
    let err := if g.beh.updateThrows then some (JSError.updateErr g.id) else none
    (err, [Event.updateEv g.id])

/-- Embedding of the `_updateMatchedLayers` loop.  The accumulator mirrors
`error = error || this._updateLayer(layer)`: because `||` short circuits,
once an error has been recorded `_updateLayer` is not invoked for the
remaining layers. -/
def updateMatchedLayersAux : Option JSError → List LayerObj → Option JSError × List Event
  | err, [] => (err, [])
  | some e, _ :: rest => updateMatchedLayersAux (some e) rest
  | none, g :: rest =>
    let u := updateLayer g
    let r := updateMatchedLayersAux u.1 rest
    (r.1, u.2 ++ r.2)

def updateMatchedLayers (gens : List LayerObj) : Option JSError × List Event :=
  updateMatchedLayersAux none gens

/-- Embedding of the `_initializeNewLayers` loop over the indices of
`generatedLayers`; unlike the update and finalize loops this one stores the
per-layer error in a local first (`const layerError = ...`), so
`_initializeNewLayer` is invoked for every layer. -/
def initNewLayersGo (st : PassSt) : List Nat → Option JSError × PassSt
  | [] => (none, st)
  | i :: rest =>
    match st.gens[i]? with
    | none => initNewLayersGo st rest
    | some g =>
      let r := initializeNewLayer st i g
      let st2 := { r.2.1 with gens := r.2.1.gens.set i r.2.2 }
      let r2 := initNewLayersGo st2 rest
      (r.1 <|> r2.1, r2.2)

def initializeNewLayers (st : PassSt) : Option JSError × PassSt :=
  initNewLayersGo st (List.range st.gens.length)

/-- Embedding of the private `_updateLayers({oldLayers, newLayers})`: match
(collecting caught errors), then finalize the old layers, update the
matched layers and initialize the new layers, and return the first error
of the four phases together with the generated forest. -/
def updateLayersCore (olds : List LayerObj) (news : NewForest) : Option JSError × PassSt :=
  let m := matchLayers news (mkInitSt olds)
  let f := finalizeOldLayersAux none m.2.olds
  let st2 := { m.2 with olds := f.2.1, events := m.2.events ++ f.2.2 }
  let u := updateMatchedLayersAux none st2.gens
  let st3 := { st2 with events := st2.events ++ u.2 }
  let i := initializeNewLayers st3
  (m.1 <|> (f.1 <|> (u.1 <|> i.1)), i.2)

/-- Embedding of the public `updateLayers({newLayers})`: run the pass, make
the generated forest the live forest (`this.layers = generatedLayers`), and
only then report the first error (`if (error) throw error`).  The returned
pair is (installed forest, thrown error). -/
def updateLayers (layers : List LayerObj) (newLayers : NewForest) :
    List LayerObj × Option JSError :=
  let r := updateLayersCore layers newLayers
  (r.2.gens, r.1)

mutual
/-- Flattening of one layer: the id followed by the flattened children. -/
def dfsIdsOne : NewLayer → List Nat
  | NewLayer.node i _ _ ch => i :: dfsIds ch

/-- Depth-first, left-to-right flattening of a new forest: ids in the
order layer descriptors are discovered, each parent immediately followed by
its recursively flattened children, before any later sibling. -/
def dfsIds : NewForest → List Nat
  | NewForest.nil => []
  | NewForest.cons n rest => dfsIdsOne n ++ dfsIds rest
end

mutual
/-- True when neither this layer nor any descendant has a throwing
`renderLayers`. -/
def renderOkOne : NewLayer → Bool
  | NewLayer.node _ _ b ch => !b.renderThrows && renderOk ch

/-- True when no layer of the forest has a throwing `renderLayers`. -/
def renderOk : NewForest → Bool
  | NewForest.nil => true
  | NewForest.cons n rest => renderOkOne n && renderOk rest
end

/-- Clear the initialize and update failure flags of a behaviour, keeping
the `renderLayers` behaviour. -/
def scrubBeh (b : Beh) : Beh :=
  { b with initThrows := false, updateThrows := false }

mutual
/-- Clear the lifecycle-callback failure flags (initialize and update) of
one descriptor and its descendants, keeping ids, props, structure and the
`renderLayers` behaviour. -/
def scrubLifeOne : NewLayer → NewLayer
  | NewLayer.node i p b ch =>
    NewLayer.node i p (scrubBeh b) (scrubLife ch)

/-- Clear the lifecycle-callback failure flags of a whole forest. -/
def scrubLife : NewForest → NewForest
  | NewForest.nil => NewForest.nil
  | NewForest.cons n rest => NewForest.cons (scrubLifeOne n) (scrubLife rest)
end

/-- Clear the finalize-callback failure flag of an old layer. -/
def scrubOld (ol : LayerObj) : LayerObj :=
  { ol with beh := { ol.beh with finalizeThrows := false } }

/-- The part of an old layer that the matcher reads: id, props and state.
The behaviour flags of lifecycle callbacks are not consulted during
matching. -/
def stripOld (ol : LayerObj) : Nat × Nat × Option Nat :=
  (ol.id, ol.props, ol.state)

/-- Simulation relation between the pass states of two runs whose layers
differ only in lifecycle-callback failure flags: same old-layer map, same
stripped old layers, and generated layers with the same ids in the same
order. -/
def simRel (stA stB : PassSt) : Prop :=
  stA.oldMap = stB.oldMap ∧
  stA.olds.map stripOld = stB.olds.map stripOld ∧
  stA.gens.map LayerObj.id = stB.gens.map LayerObj.id

/-- Invariant of the old-layer map during matching: every live entry
(id mapped to an unconsumed index) points at an existing old layer that
still holds state, and no two live entries share an index.  It holds for
the map built by `_matchLayers` over initialized old layers and is
preserved by every matching step. -/
def mapInv (st : PassSt) : Prop :=
  (∀ k i, lookupMap st.oldMap k = some (some i) →
    ∃ ol, st.olds[i]? = some ol ∧ ol.state.isSome = true) ∧
  (∀ k1 k2 i, lookupMap st.oldMap k1 = some (some i) →
    lookupMap st.oldMap k2 = some (some i) → k1 = k2)

/-- Resubmission of the live forest: a fresh descriptor per live layer with
the same id and unchanged props, flat, with well-behaved callbacks. -/
def mkSameForest : List LayerObj → NewForest
  | [] => NewForest.nil
  | ol :: rest => NewForest.cons (NewLayer.node ol.id ol.props {} NewForest.nil) (mkSameForest rest)

/-! ### Viewport context tracker (`setContext`) -/

/-- Camera parameters handed to `setContext`. -/
structure CamParams where
  width : Int
  height : Int
  latitude : Int
  longitude : Int
  zoom : Int
  pitch : Int
  bearing : Int
  altitude : Int
deriving DecidableEq, Repr

/-- The viewport object built by `new Viewport({...})`; the derived
uniform bundle is opaque external data and is not modelled. -/
structure Viewport where
  width : Int
  height : Int
  latitude : Int
  longitude : Int
  zoom : Int
  pitch : Int
  bearing : Int
  altitude : Int
  tileSize : Int
deriving DecidableEq, Repr

/-- The context owned by the manager (the `gl` handle and the uniform
bundle are opaque external data and are not modelled). -/
structure LMContext where
  viewport : Option Viewport
  viewportChanged : Bool
deriving DecidableEq, Repr

/-- The context-tracking part of the manager: the current context and the
shadow copy of the previous one (initially the empty object). -/
structure VCMgr where
  context : LMContext
  oldContext : Option LMContext
deriving DecidableEq, Repr

/-- Constructor state: no viewport yet, `viewportChanged = true`,
`oldContext = {}`. -/
def initVCMgr : VCMgr :=
  { context := { viewport := none, viewportChanged := true }, oldContext := none }

/-- Field-by-field comparison used by `setContext`, in source order. -/
def viewportDiffers (p : CamParams) : Option Viewport → Bool
  | none => true
  | some v =>
    decide (p.width ≠ v.width) || decide (p.height ≠ v.height) ||
    decide (p.latitude ≠ v.latitude) || decide (p.longitude ≠ v.longitude) ||
    decide (p.zoom ≠ v.zoom) || decide (p.bearing ≠ v.bearing) ||
    decide (p.pitch ≠ v.pitch) || decide (p.altitude ≠ v.altitude)

/-- Embedding of `setContext({width, ..., altitude})`: compute
`viewportChanged`; when it is set or no viewport exists, snapshot the
current context into `oldContext`, build the new viewport (tileSize 512)
and store `viewportChanged`; otherwise leave everything untouched. -/
def setContext (m : VCMgr) (p : CamParams) : VCMgr :=
  let viewportChanged := viewportDiffers p m.context.viewport
  if viewportChanged || m.context.viewport.isNone then
    { context :=
        { viewport := some
            { width := p.width, height := p.height, latitude := p.latitude,
              longitude := p.longitude, zoom := p.zoom, pitch := p.pitch,
              bearing := p.bearing, altitude := p.altitude, tileSize := 512 },
          viewportChanged := viewportChanged },
      oldContext := some m.context }
  else m

/-! ### Redraw tracker (`needsRedraw`) -/

/-- The redraw-tracking part of the manager.  Each live layer is
represented by its current dirty flag; `getNeedsRedraw({clearRedrawFlags})`
is an external collaborator of the core.  Modelled from the spec: the
collaborator returns the flag of the layer and, when asked to clear,
resets it. -/
structure RedrawMgr where
  layerFlags : List Bool
  drewLayers : Bool
  viewportChanged : Bool
deriving DecidableEq, Repr

/-- The `for (const layer of this.layers)` loop of `needsRedraw`:
`redraw = redraw || layer.getNeedsRedraw({clearRedrawFlags})` short
circuits, so once `redraw` is true the collaborator is no longer consulted
(and no further flags are cleared); `this.drewLayers = true` is executed on
every iteration.  Returns (redraw, drewLayers, updated flags). -/
def redrawLoop (clearRedrawFlags : Bool) : List Bool → Bool → Bool × Bool × List Bool
  | [], r => (r, false, [])
  | f :: rest, r =>
    if r then
      let t := redrawLoop clearRedrawFlags rest r
      (t.1, true, f :: t.2.2)
    else
      let f' := if clearRedrawFlags then false else f
      let t := redrawLoop clearRedrawFlags rest f
      (t.1, true, f' :: t.2.2)

/-- Embedding of `needsRedraw({clearRedrawFlags})`: redraw is forced when
the live forest is empty but layers were drawn last check, or when the
viewport changed; then the per-layer flags are ORed in. -/
def needsRedraw (m : RedrawMgr) (clearRedrawFlags : Bool) : Bool × RedrawMgr :=
  let redraw := decide (m.layerFlags.length = 0) && m.drewLayers
  let redraw := redraw || m.viewportChanged
  let t := redrawLoop clearRedrawFlags m.layerFlags redraw
  (t.1, { m with drewLayers := t.2.1, layerFlags := t.2.2 })

/-! ### Concrete inputs used by the counterexamples and witnesses -/

/-- Convert a list of descriptors into a forest. -/
def forestOfList : List NewLayer → NewForest
  | [] => NewForest.nil
  | n :: rest => NewForest.cons n (forestOfList rest)

/-- Two initialized live layers (ids 0 and 1). -/
def twoOlds : List LayerObj := [⟨0, 0, {}, none, some 10⟩, ⟨1, 0, {}, none, some 11⟩]

/-- Resubmission of ids 0 and 1 where the update callback of layer 0
throws. -/
def newsUpdThrow : NewForest :=
  forestOfList [NewLayer.node 0 0 { updateThrows := true } NewForest.nil,
                NewLayer.node 1 0 {} NewForest.nil]

/-- One initialized live layer (id 0). -/
def oneOld : List LayerObj := [⟨0, 0, {}, none, some 10⟩]

/-- New forest with matched id 0 and brand-new id 1. -/
def newsOldNew : NewForest :=
  forestOfList [NewLayer.node 0 0 {} NewForest.nil, NewLayer.node 1 0 {} NewForest.nil]

/-- Parent (id 7) whose `renderLayers` throws, with one child (id 8). -/
def newsRenderThrow : NewForest :=
  forestOfList [NewLayer.node 7 0 { renderThrows := true }
                  (forestOfList [NewLayer.node 8 0 {} NewForest.nil])]

/-- The same forest as `newsRenderThrow` with a well-behaved
`renderLayers`. -/
def newsRenderOk : NewForest :=
  forestOfList [NewLayer.node 7 0 {}
                  (forestOfList [NewLayer.node 8 0 {} NewForest.nil])]

/-- One live layer (id 0) whose state is absent (for instance because its
initialization failed in the pass that created it). -/
def statelessOld : List LayerObj := [⟨0, 0, {}, none, none⟩]

/-- Nested new forest: id 1 producing child id 2 (which matches an old
layer), then sibling id 3. -/
def newsNested : NewForest :=
  forestOfList [NewLayer.node 1 0 {} (forestOfList [NewLayer.node 2 0 {} NewForest.nil]),
                NewLayer.node 3 0 {} NewForest.nil]

/-- One live layer with id 2, matched by a nested child of `newsNested`. -/
def oldId2 : List LayerObj := [⟨2, 0, {}, none, some 10⟩]

/-- Three initialized live layers with distinct ids and props. -/
def threeOlds : List LayerObj :=
  [⟨0, 5, {}, none, some 10⟩, ⟨1, 6, {}, none, some 11⟩, ⟨2, 7, {}, none, some 12⟩]

/-- One live layer whose finalize callback throws. -/
def finThrowOld : LayerObj := ⟨4, 0, { finalizeThrows := true }, none, some 9⟩

/-- Camera parameters used by the context-tracker examples. -/
def cam0 : CamParams := ⟨0, 0, 0, 0, 0, 0, 0, 0⟩

/-- Redraw state with one live (clean) layer and an unchanged viewport. -/
def drawnRedrawMgr : RedrawMgr := ⟨[false], false, false⟩

/-- A pass state whose old-layer map pairs id 0 with the stateless old
layer at index 0 (the situation right before matching id 0). -/
def statelessSt : PassSt := ⟨statelessOld, [(0, some 0)], [], [], 0, []⟩

/-! ### General helper lemmas -/

theorem set_getElem?_self {α : Type} :
    ∀ (l : List α) (i : Nat) (a : α), l[i]? = some a → l.set i a = l
  | [], _, _, h => by simp at h
  | x :: xs, 0, a, h => by
    simp at h
    simp [List.set, h]
  | x :: xs, i + 1, a, h => by
    simp at h
    simp [List.set]
    exact set_getElem?_self xs i a h

theorem lookupMap_setMap_self (m : List (Nat × Option Nat)) (k : Nat) (v : Option Nat) :
    lookupMap (setMap m k v) k = some v := by
  induction m with
  | nil => simp [setMap, lookupMap]
  | cons p rest ih =>
    by_cases h : p.1 = k
    · simp [setMap, lookupMap, h]
    · simp [setMap, lookupMap, h, ih]

theorem lookupMap_setMap_ne (m : List (Nat × Option Nat)) (k : Nat) (v : Option Nat)
    (k' : Nat) (h : k' ≠ k) :
    lookupMap (setMap m k v) k' = lookupMap m k' := by
  induction m with
  | nil => simp [setMap, lookupMap, Ne.symm h]
  | cons p rest ih =>
    rcases p with ⟨pk, pv⟩
    by_cases hp : pk = k
    · subst hp
      simp [setMap, lookupMap, Ne.symm h]
    · by_cases hp' : pk = k'
      · simp [setMap, lookupMap, hp, hp', h]
      · simp [setMap, lookupMap, hp, hp', ih]

/-! ### C1 -/

/-- C1 (code bug): the claim says that when the update callback of a
matched layer throws, every other matched layer of the pass still receives
its update callback.  The loop of `_updateMatchedLayers` accumulates with
`error = error || this._updateLayer(layer)`, and `||` short circuits, so
after the first error no further update callback is invoked.  At the
failing input (two matched layers, the first with a throwing update
callback) the trace holds the update invocation of layer 0 only — layer 1
never receives its update callback — while the error is surfaced once. -/
theorem c1_update_short_circuit_bug :
    (updateLayersCore twoOlds newsUpdThrow).2.events = [Event.updateEv 0] ∧
    (updateLayersCore twoOlds newsUpdThrow).1 = some (JSError.updateErr 0) := by
  decide

/-! ### C2 -/

/-- C2 (counterexample): with old forest [id 0] and new forest
[id 0, id 1], the trace is [initialize 1, update 0]: the initialize
callback of the brand-new layer 1 is invoked during the matching phase,
before the update callback of the matched layer 0, refuting the claimed
order (every update before any initialize of a brand-new layer). -/
theorem c2_counterexample :
    ¬ (∀ i j, ((updateLayersCore oneOld newsOldNew).2.events).get? i = some (Event.updateEv 0) →
        ((updateLayersCore oneOld newsOldNew).2.events).get? j = some (Event.initEv 1) →
        i < j) := by
  intro h
  have h10 := h 1 0 (by decide) (by decide)
  omega

/-! ### C3 -/

/-- C3 (counterexample): submitting the same camera parameters twice in a
row leaves `viewportChanged` true, not false: `setContext` never resets the
flag, it only ever sets it to true (on the first call or on a change), so
a call with all-equal parameters leaves the previous value — true — in
place. -/
theorem c3_counterexample :
    ¬ ((setContext (setContext initVCMgr cam0) cam0).context.viewportChanged = false) := by
  decide

/-- C3 (amended): a `setContext` call whose parameters all equal the
existing viewport is a complete no-op: the context object (including the
previously stored `viewportChanged` value) and the old-context snapshot are
left untouched.  The flag is therefore true after every parameter change
and after the first call, but it is never reset to false by `setContext`
itself. -/
theorem c3_setContext_noop_amended (m : VCMgr) (p : CamParams) (v : Viewport)
    (hv : m.context.viewport = some v)
    (heq : viewportDiffers p (some v) = false) :
    setContext m p = m := by
  simp [setContext, hv, heq]

/-- C3 witness: the second submission of `cam0` is a no-op. -/
theorem c3_witness :
    setContext (setContext initVCMgr cam0) cam0 = setContext initVCMgr cam0 :=
  c3_setContext_noop_amended (setContext initVCMgr cam0) cam0
    ⟨0, 0, 0, 0, 0, 0, 0, 0, 512⟩ (by decide) (by decide)

/-! ### C4 -/

theorem redrawLoop_drew_nonempty (c : Bool) (f : Bool) (rest : List Bool) (r : Bool) :
    (redrawLoop c (f :: rest) r).2.1 = true := by
  cases r <;> simp [redrawLoop]

theorem needsRedraw_empty (m : RedrawMgr) (c : Bool) (h : m.layerFlags = []) :
    needsRedraw m c = (m.drewLayers || m.viewportChanged, { m with drewLayers := false }) := by
  cases m
  simp_all [needsRedraw, redrawLoop]

/-- C4: after a check that saw a non-empty (drawn) forest, emptying the
forest makes `needsRedraw` return true on exactly the first check (the
clear-once rule fires because `drewLayers` was set) and false on a second
check with the forest still empty and the viewport unchanged. -/
theorem c4_needsRedraw_empty_transition (m : RedrawMgr) (c : Bool)
    (hne : m.layerFlags ≠ []) (hvc : m.viewportChanged = false) :
    ((needsRedraw { (needsRedraw m c).2 with layerFlags := [] } c).1 = true) ∧
    ((needsRedraw (needsRedraw { (needsRedraw m c).2 with layerFlags := [] } c).2 c).1 = false) := by
  have h1 : (needsRedraw m c).2.drewLayers = true := by
    cases hm : m.layerFlags with
    | nil => exact absurd hm hne
    | cons f rest => simp [needsRedraw, hm, redrawLoop_drew_nonempty]
  have h2 : (needsRedraw m c).2.viewportChanged = false := by
    simp [needsRedraw, hvc]
  have he1 := needsRedraw_empty { (needsRedraw m c).2 with layerFlags := ([] : List Bool) } c rfl
  constructor
  · rw [he1]
    simp [h1]
  · rw [he1]
    rw [needsRedraw_empty _ c rfl]
    simp [h2]

/-- C4 witness: a concrete manager with one live layer goes through the
non-empty-to-empty transition and redraws exactly once. -/
theorem c4_witness :
    ((needsRedraw { (needsRedraw drawnRedrawMgr false).2 with layerFlags := [] } false).1 = true) ∧
    ((needsRedraw (needsRedraw { (needsRedraw drawnRedrawMgr false).2 with
        layerFlags := [] } false).2 false).1 = false) :=
  c4_needsRedraw_empty_transition drawnRedrawMgr false (by decide) rfl

/-! ### C5 -/

/-- C5 (counterexample): the pass with a layer (id 7) whose `renderLayers`
throws installs the forest [7] and surfaces the render error, whereas the
identical pass without the failure installs [7, 8]: on this error the
installed forest is not the fully-built forest of the successful run (the
children of the failing layer are missing). -/
theorem c5_counterexample :
    (updateLayersCore [] newsRenderThrow).1 = some (JSError.renderErr 7) ∧
    ((updateLayersCore [] newsRenderThrow).2.gens).map LayerObj.id = [7] ∧
    ((updateLayersCore [] newsRenderOk).2.gens).map LayerObj.id = [7, 8] := by
  decide

/-! ### C6 -/

/-- C6: `_transferLayerState` moves the state object by reference: the new
layer ends up holding exactly the token the old layer held, `oldProps` is
set to the old props, the old layer slot is cleared in the same step, every
other old layer is untouched, and — provided the old layer was the only
owner — afterwards no old layer owns the token at all, so at most one live
layer owns a given state object at any time. -/
theorem c6_transfer_moves_state (st : PassSt) (i nidx : Nat) (g ol : LayerObj) (tok : Nat)
    (ho : st.olds[i]? = some ol) (hs : ol.state = some tok)
    (huniq : ∀ j, j < st.olds.length → j ≠ i →
      st.olds[j]?.bind LayerObj.state ≠ some tok) :
    ∃ st' g', transferLayerState st i nidx g = Except.ok (st', g') ∧
      g'.state = some tok ∧
      g'.oldProps = some ol.props ∧
      st'.olds[i]? = some { ol with state := none } ∧
      (∀ j : Nat, j ≠ i → st'.olds[j]? = st.olds[j]?) ∧
      (∀ j : Nat, st'.olds[j]?.bind LayerObj.state ≠ some tok) := by
  have heq : transferLayerState st i nidx g = Except.ok
      ({ st with olds := st.olds.set i { ol with state := none },
                 states := setStateLayer st.states tok (LayerRef.newL nidx) },
       { g with state := some tok, oldProps := some ol.props }) := by
    simp [transferLayerState, ho, hs]
  refine ⟨_, _, heq, rfl, rfl, ?_, ?_, ?_⟩
  · simp [List.getElem?_set_self', ho]
  · intro j hj
    simpa using List.getElem?_set_ne (Ne.symm hj)
  · intro j
    by_cases hj : j = i
    · subst hj
      simp [List.getElem?_set_self', ho]
    · by_cases hlt : j < st.olds.length
      · have hu := huniq j hlt hj
        simpa [List.getElem?_set_ne (Ne.symm hj)] using hu
      · have hnone : st.olds[j]? = none := by
          rw [List.getElem?_eq_none_iff]
          omega
        simp [List.getElem?_set_ne (Ne.symm hj), hnone]

/-- C6 witness: transferring the state of the first of two live layers. -/
theorem c6_witness :
    ∃ st' g', transferLayerState (mkInitSt twoOlds) 0 0 ⟨0, 0, {}, none, none⟩
        = Except.ok (st', g') ∧
      g'.state = some 10 ∧
      g'.oldProps = some (0 : Nat) ∧
      st'.olds[0]? = some { (⟨0, 0, {}, none, some 10⟩ : LayerObj) with state := none } ∧
      (∀ j : Nat, j ≠ 0 → st'.olds[j]? = (mkInitSt twoOlds).olds[j]?) ∧
      (∀ j : Nat, st'.olds[j]?.bind LayerObj.state ≠ some 10) :=
  c6_transfer_moves_state (mkInitSt twoOlds) 0 0 ⟨0, 0, {}, none, none⟩
    ⟨0, 0, {}, none, some 10⟩ 10 (by decide) rfl (by decide)

/-! ### C9 -/

/-- C9 (counterexample): matching a new layer (id 0) with a stateless old
layer does not fail immediately: the assertion error is caught by the
per-layer isolation, the following sibling (id 1) is still processed — it
is initialized and appears in the installed forest — and the error is only
surfaced as the first error of the completed pass. -/
theorem c9_counterexample :
    (updateLayersCore statelessOld newsOldNew).1 = some (JSError.assertNoState 0) ∧
    ((updateLayersCore statelessOld newsOldNew).2.gens).map LayerObj.id = [1] ∧
    (updateLayersCore statelessOld newsOldNew).2.events = [Event.initEv 1] := by
  decide

/-- C9 (amended): when matching pairs a new layer with a stateless old
layer, the `assert(state)` error is caught by the catch block of
`_matchSublayers` exactly like a per-layer lifecycle failure: it is
recorded as the first error of the pass (surfaced only when the pass
completes), the failing layer is dropped from the output, and the
remaining layers continue to be processed from the state left behind
(the id slot consumed). -/
theorem c9_assert_deferred_amended (nid np : Nat) (nb : Beh) (nch : NewForest)
    (rest : NewForest) (st : PassSt) (i : Nat) (ol : LayerObj)
    (hl : lookupMap st.oldMap nid = some (some i))
    (ho : st.olds[i]? = some ol) (hs : ol.state = none) :
    (matchSublayers (NewForest.cons (NewLayer.node nid np nb nch) rest) st).1
        = some (JSError.assertNoState nid) ∧
    (matchSublayers (NewForest.cons (NewLayer.node nid np nb nch) rest) st).2
        = (matchSublayers rest { st with oldMap := setMap st.oldMap nid none }).2 := by
  constructor
  · simp [matchSublayers, matchSingleLayer, transferLayerState, hl, ho, hs]
  · simp [matchSublayers, matchSingleLayer, transferLayerState, hl, ho, hs]

/-- C9 witness: the deferred assertion at a concrete stateless match. -/
theorem c9_witness :
    (matchSublayers (NewForest.cons (NewLayer.node 0 0 {} NewForest.nil) NewForest.nil)
        statelessSt).1 = some (JSError.assertNoState 0) ∧
    (matchSublayers (NewForest.cons (NewLayer.node 0 0 {} NewForest.nil) NewForest.nil)
        statelessSt).2
      = (matchSublayers NewForest.nil
          { statelessSt with oldMap := setMap statelessSt.oldMap 0 none }).2 :=
  c9_assert_deferred_amended 0 0 {} NewForest.nil NewForest.nil statelessSt 0
    ⟨0, 0, {}, none, none⟩ rfl rfl rfl

/-! ### C10 -/

/-- C10: `_finalizeLayer` clears the state reference of the layer even
when the finalize callback throws: the catch swallows the throw and
`layer.state = null` runs unconditionally afterwards, so a layer never
retains state after its finalize was attempted. -/
theorem c10_finalize_clears_state (ol : LayerObj) (tok : Nat)
    (hs : ol.state = some tok) (hthrow : ol.beh.finalizeThrows = true) :
    (finalizeLayer ol).1 = some (JSError.finalizeErr ol.id) ∧
    (finalizeLayer ol).2.1.state = none := by
  simp [finalizeLayer, hs, hthrow]

/-- C10 witness: a concrete layer with a throwing finalize callback. -/
theorem c10_witness :
    (finalizeLayer finThrowOld).1 = some (JSError.finalizeErr 4) ∧
    (finalizeLayer finThrowOld).2.1.state = none :=
  c10_finalize_clears_state finThrowOld 9 rfl rfl

/-! ### Inversion and bookkeeping lemmas for the matcher -/

theorem transferLayerState_ok_elim {st : PassSt} {i nidx : Nat} {g : LayerObj}
    {st2 : PassSt} {g1 : LayerObj}
    (h : transferLayerState st i nidx g = Except.ok (st2, g1)) :
    ∃ ol tok, st.olds[i]? = some ol ∧ ol.state = some tok ∧
      st2 = { st with olds := st.olds.set i { ol with state := none },
                      states := setStateLayer st.states tok (LayerRef.newL nidx) } ∧
      g1 = { g with state := some tok, oldProps := some ol.props } := by
  unfold transferLayerState at h
  split at h
  · cases h
  · rename_i ol hol
    split at h
    · cases h
    · rename_i tok htok
      refine ⟨ol, tok, hol, htok, ?_, ?_⟩
      · cases h
        rfl
      · cases h
        rfl

theorem initializeNewLayer_olds (st : PassSt) (nidx : Nat) (g : LayerObj) :
    (initializeNewLayer st nidx g).2.1.olds = st.olds := by
  unfold initializeNewLayer
  cases g.state <;> [skip; rfl]
  by_cases h : g.beh.initThrows <;> simp [h]

theorem initializeNewLayer_oldMap (st : PassSt) (nidx : Nat) (g : LayerObj) :
    (initializeNewLayer st nidx g).2.1.oldMap = st.oldMap := by
  unfold initializeNewLayer
  cases g.state <;> [skip; rfl]
  by_cases h : g.beh.initThrows <;> simp [h]

theorem initializeNewLayer_gens (st : PassSt) (nidx : Nat) (g : LayerObj) :
    (initializeNewLayer st nidx g).2.1.gens = st.gens := by
  unfold initializeNewLayer
  cases g.state <;> [skip; rfl]
  by_cases h : g.beh.initThrows <;> simp [h]

theorem initializeNewLayer_id (st : PassSt) (nidx : Nat) (g : LayerObj) :
    (initializeNewLayer st nidx g).2.2.id = g.id := by
  unfold initializeNewLayer
  cases g.state <;> [skip; rfl]
  by_cases h : g.beh.initThrows <;> simp [h]

theorem initializeNewLayer_events (st : PassSt) (nidx : Nat) (g : LayerObj) :
    ∃ l, (initializeNewLayer st nidx g).2.1.events = st.events ++ l ∧
      l.all Event.isInit = true := by
  unfold initializeNewLayer
  cases g.state with
  | some tok => exact ⟨[], by simp, rfl⟩
  | none =>
    by_cases h : g.beh.initThrows
    · exact ⟨[Event.initEv g.id], by simp [h], rfl⟩
    · exact ⟨[Event.initEv g.id], by simp [h], rfl⟩

/-! ### C2: only initialize callbacks run during matching -/

theorem matchCont_events (nid : Nat) (nb : Beh) (nch : NewForest) (st2 : PassSt) (g1 : LayerObj)
    (hsub : ∀ st' : PassSt, ∃ l, (matchSublayers nch st').2.events = st'.events ++ l ∧
      l.all Event.isInit = true) :
    ∃ l, (if nb.renderThrows = true then
            ((some (JSError.renderErr nid) : Option JSError),
              { (initializeNewLayer st2 st2.gens.length g1).2.1 with
                gens := (initializeNewLayer st2 st2.gens.length g1).2.1.gens ++
                  [(initializeNewLayer st2 st2.gens.length g1).2.2] })
          else
            (none, (matchSublayers nch
              { (initializeNewLayer st2 st2.gens.length g1).2.1 with
                gens := (initializeNewLayer st2 st2.gens.length g1).2.1.gens ++
                  [(initializeNewLayer st2 st2.gens.length g1).2.2] }).2)).2.events
      = st2.events ++ l ∧ l.all Event.isInit = true := by
  obtain ⟨l1, hl1, ha1⟩ := initializeNewLayer_events st2 st2.gens.length g1
  by_cases hr : nb.renderThrows = true
  · refine ⟨l1, ?_, ha1⟩
    simp only [hr, if_pos]
    exact hl1
  · obtain ⟨l2, hl2, ha2⟩ := hsub
      { (initializeNewLayer st2 st2.gens.length g1).2.1 with
        gens := (initializeNewLayer st2 st2.gens.length g1).2.1.gens ++
          [(initializeNewLayer st2 st2.gens.length g1).2.2] }
    refine ⟨l1 ++ l2, ?_, ?_⟩
    · simp only [hr, if_neg, Bool.false_eq_true, not_false_iff]
      rw [hl2]
      simp only []
      rw [hl1]
      simp
    · simp_all

mutual
theorem matchSingleLayer_events : ∀ (n : NewLayer) (st : PassSt),
    ∃ l, (matchSingleLayer n st).2.events = st.events ++ l ∧ l.all Event.isInit = true
  | NewLayer.node nid np nb nch, st => by
    simp only [matchSingleLayer]
    cases hl : lookupMap st.oldMap nid with
    | none =>
      simp only [hl]
      exact matchCont_events nid nb nch _ _ (fun st' => matchSublayers_events nch st')
    | some oi =>
      cases oi with
      | none =>
        simp only [hl]
        exact matchCont_events nid nb nch _ _ (fun st' => matchSublayers_events nch st')
      | some i =>
        simp only [hl]
        cases htr : transferLayerState { st with oldMap := setMap st.oldMap nid none } i
            st.gens.length { id := nid, props := np, beh := nb } with
        | error e =>
          simp only [htr]
          exact ⟨[], by simp, rfl⟩
        | ok p =>
          obtain ⟨st2, g1⟩ := p
          simp only [htr]
          obtain ⟨ol, tok, hol, htok, hst2, hg1⟩ := transferLayerState_ok_elim htr
          obtain ⟨l, hle, hla⟩ :=
            matchCont_events nid nb nch st2 g1 (fun st' => matchSublayers_events nch st')
          refine ⟨l, ?_, hla⟩
          rw [hle, hst2]

theorem matchSublayers_events : ∀ (ns : NewForest) (st : PassSt),
    ∃ l, (matchSublayers ns st).2.events = st.events ++ l ∧ l.all Event.isInit = true
  | NewForest.nil, st => ⟨[], by simp [matchSublayers], rfl⟩
  | NewForest.cons n rest, st => by
    obtain ⟨l1, hl1, ha1⟩ := matchSingleLayer_events n st
    obtain ⟨l2, hl2, ha2⟩ := matchSublayers_events rest (matchSingleLayer n st).2
    refine ⟨l1 ++ l2, ?_, ?_⟩
    · simp only [matchSublayers]
      rw [hl2, hl1]
      simp
    · simp_all
end

theorem finalizeOldLayersAux_events (err : Option JSError) (olds : List LayerObj) :
    (finalizeOldLayersAux err olds).2.2.all Event.isFinalize = true := by
  induction olds generalizing err with
  | nil => cases err <;> rfl
  | cons ol rest ih =>
    cases err with
    | some e => simpa [finalizeOldLayersAux] using ih (some e)
    | none =>
      unfold finalizeOldLayersAux finalizeLayer
      cases hs : ol.state with
      | none => simpa using ih none
      | some tok =>
        by_cases hf : ol.beh.finalizeThrows <;>
          simp [hf, ih, Event.isFinalize]

theorem updateMatchedLayersAux_events (err : Option JSError) (gens : List LayerObj) :
    (updateMatchedLayersAux err gens).2.all Event.isUpdate = true := by
  induction gens generalizing err with
  | nil => cases err <;> rfl
  | cons g rest ih =>
    cases err with
    | some e => simpa [updateMatchedLayersAux] using ih (some e)
    | none =>
      unfold updateMatchedLayersAux updateLayer
      cases hp : g.oldProps with
      | none => simpa using ih none
      | some op =>
        by_cases hu : g.beh.updateThrows <;>
          simp [hu, ih, Event.isUpdate]

theorem initNewLayersGo_events (st : PassSt) (idxs : List Nat) :
    ∃ l, (initNewLayersGo st idxs).2.events = st.events ++ l ∧
      l.all Event.isInit = true := by
  induction idxs generalizing st with
  | nil => exact ⟨[], by simp [initNewLayersGo], rfl⟩
  | cons i rest ih =>
    unfold initNewLayersGo
    cases hg : st.gens[i]? with
    | none => exact ih st
    | some g =>
      obtain ⟨l1, hl1, ha1⟩ := initializeNewLayer_events st i g
      obtain ⟨l2, hl2, ha2⟩ := ih
        { (initializeNewLayer st i g).2.1 with
          gens := (initializeNewLayer st i g).2.1.gens.set i (initializeNewLayer st i g).2.2 }
      refine ⟨l1 ++ l2, ?_, ?_⟩
      · rw [hl2]
        simp only []
        rw [hl1]
        simp
      · simp_all

/-- C2 (amended): within one `updateLayers` call the trace decomposes into
four blocks in this order: the initialize callbacks invoked while matching
(brand-new layers are initialized as they are discovered, before any other
callback), then the finalize callbacks of dropped layers, then the update
callbacks of matched layers, then the re-attempted initialize callbacks for
layers whose state is still missing.  In particular every finalize of a
dropped layer still precedes every update of a matched layer, but
initialization of brand-new layers is not last: it happens first, during
matching. -/
theorem c2_phase_order_amended (olds : List LayerObj) (news : NewForest) :
    ∃ a b c d, (updateLayersCore olds news).2.events = a ++ b ++ c ++ d ∧
      a.all Event.isInit = true ∧ b.all Event.isFinalize = true ∧
      c.all Event.isUpdate = true ∧ d.all Event.isInit = true := by
  obtain ⟨a, ha, haa⟩ := matchSublayers_events news
    { mkInitSt olds with oldMap := mkOldLayerMap olds }
  have hb := finalizeOldLayersAux_events none (matchLayers news (mkInitSt olds)).2.olds
  have hc := updateMatchedLayersAux_events none
    (matchLayers news (mkInitSt olds)).2.gens
  obtain ⟨d, hd, hdd⟩ := initNewLayersGo_events
    { (matchLayers news (mkInitSt olds)).2 with
      olds := (finalizeOldLayersAux none (matchLayers news (mkInitSt olds)).2.olds).2.1,
      events := (matchLayers news (mkInitSt olds)).2.events ++
        (finalizeOldLayersAux none (matchLayers news (mkInitSt olds)).2.olds).2.2 ++
        (updateMatchedLayersAux none (matchLayers news (mkInitSt olds)).2.gens).2 }
    (List.range (matchLayers news (mkInitSt olds)).2.gens.length)
  refine ⟨a, (finalizeOldLayersAux none (matchLayers news (mkInitSt olds)).2.olds).2.2,
         (updateMatchedLayersAux none (matchLayers news (mkInitSt olds)).2.gens).2,
         d, ?_, haa, hb, hc, hdd⟩
  show (initializeNewLayers _).2.events = _
  unfold initializeNewLayers
  rw [hd]
  have ha' : (matchLayers news (mkInitSt olds)).2.events = a := by
    have : (matchLayers news (mkInitSt olds)).2
        = (matchSublayers news { mkInitSt olds with oldMap := mkOldLayerMap olds }).2 := rfl
    rw [this, ha]
    rfl
  simp only []
  rw [ha']

/-! ### C7: depth-first flattening of the generated forest -/

theorem mapInv_of_eq {st st' : PassSt} (h1 : st'.olds = st.olds)
    (h2 : st'.oldMap = st.oldMap) (h : mapInv st) : mapInv st' := by
  unfold mapInv at *
  rw [h1, h2]
  exact h

theorem mapInv_consume (st : PassSt) (nid : Nat) (h : mapInv st) :
    mapInv { st with oldMap := setMap st.oldMap nid none } := by
  obtain ⟨h1, h2⟩ := h
  constructor
  · intro k i hk
    simp only [] at hk
    by_cases hkn : k = nid
    · subst hkn
      rw [lookupMap_setMap_self] at hk
      cases hk
    · rw [lookupMap_setMap_ne _ _ _ _ hkn] at hk
      exact h1 k i hk
  · intro k1 k2 i hk1 hk2
    simp only [] at hk1 hk2
    by_cases hn1 : k1 = nid
    · subst hn1
      rw [lookupMap_setMap_self] at hk1
      cases hk1
    · by_cases hn2 : k2 = nid
      · subst hn2
        rw [lookupMap_setMap_self] at hk2
        cases hk2
      · rw [lookupMap_setMap_ne _ _ _ _ hn1] at hk1
        rw [lookupMap_setMap_ne _ _ _ _ hn2] at hk2
        exact h2 k1 k2 i hk1 hk2

theorem mapInv_transfer (st : PassSt) (nid i : Nat) (x : LayerObj)
    (sts : List (Nat × StateObj))
    (h : mapInv st) (hl : lookupMap st.oldMap nid = some (some i)) :
    mapInv { st with oldMap := setMap st.oldMap nid none,
                     olds := st.olds.set i x, states := sts } := by
  obtain ⟨h1, h2⟩ := h
  constructor
  · intro k j hk
    simp only [] at hk
    by_cases hkn : k = nid
    · subst hkn
      rw [lookupMap_setMap_self] at hk
      cases hk
    · rw [lookupMap_setMap_ne _ _ _ _ hkn] at hk
      obtain ⟨ol, hol, hst⟩ := h1 k j hk
      have hji : j ≠ i := by
        intro hji
        subst hji
        exact hkn (h2 k nid j hk hl)
      refine ⟨ol, ?_, hst⟩
      simp only []
      rw [List.getElem?_set_ne (Ne.symm hji)]
      exact hol
  · intro k1 k2 j hk1 hk2
    simp only [] at hk1 hk2
    by_cases hn1 : k1 = nid
    · subst hn1
      rw [lookupMap_setMap_self] at hk1
      cases hk1
    · by_cases hn2 : k2 = nid
      · subst hn2
        rw [lookupMap_setMap_self] at hk2
        cases hk2
      · rw [lookupMap_setMap_ne _ _ _ _ hn1] at hk1
        rw [lookupMap_setMap_ne _ _ _ _ hn2] at hk2
        exact h2 k1 k2 j hk1 hk2

theorem matchCont_dfs (nid : Nat) (nb : Beh) (nch : NewForest) (st2 : PassSt) (g1 : LayerObj)
    (hid : g1.id = nid) (hr : nb.renderThrows = false) (hrc : renderOk nch = true)
    (hinv : mapInv st2)
    (hsub : ∀ st' : PassSt, mapInv st' → renderOk nch = true →
      (matchSublayers nch st').2.gens.map LayerObj.id
          = st'.gens.map LayerObj.id ++ dfsIds nch ∧
        mapInv (matchSublayers nch st').2) :
    (if nb.renderThrows = true then
        ((some (JSError.renderErr nid) : Option JSError),
          { (initializeNewLayer st2 st2.gens.length g1).2.1 with
            gens := (initializeNewLayer st2 st2.gens.length g1).2.1.gens ++
              [(initializeNewLayer st2 st2.gens.length g1).2.2] })
      else
        (none, (matchSublayers nch
          { (initializeNewLayer st2 st2.gens.length g1).2.1 with
            gens := (initializeNewLayer st2 st2.gens.length g1).2.1.gens ++
              [(initializeNewLayer st2 st2.gens.length g1).2.2] }).2)).2.gens.map LayerObj.id
      = st2.gens.map LayerObj.id ++ (nid :: dfsIds nch) ∧
    mapInv (if nb.renderThrows = true then
        ((some (JSError.renderErr nid) : Option JSError),
          { (initializeNewLayer st2 st2.gens.length g1).2.1 with
            gens := (initializeNewLayer st2 st2.gens.length g1).2.1.gens ++
              [(initializeNewLayer st2 st2.gens.length g1).2.2] })
      else
        (none, (matchSublayers nch
          { (initializeNewLayer st2 st2.gens.length g1).2.1 with
            gens := (initializeNewLayer st2 st2.gens.length g1).2.1.gens ++
              [(initializeNewLayer st2 st2.gens.length g1).2.2] }).2)).2 := by
  have hinv4 : mapInv
      { (initializeNewLayer st2 st2.gens.length g1).2.1 with
        gens := (initializeNewLayer st2 st2.gens.length g1).2.1.gens ++
          [(initializeNewLayer st2 st2.gens.length g1).2.2] } := by
    refine mapInv_of_eq ?_ ?_ hinv
    · simpa using initializeNewLayer_olds st2 st2.gens.length g1
    · simpa using initializeNewLayer_oldMap st2 st2.gens.length g1
  have hg4 : ({ (initializeNewLayer st2 st2.gens.length g1).2.1 with
        gens := (initializeNewLayer st2 st2.gens.length g1).2.1.gens ++
          [(initializeNewLayer st2 st2.gens.length g1).2.2] } : PassSt).gens.map LayerObj.id
      = st2.gens.map LayerObj.id ++ [nid] := by
    simp only []
    rw [List.map_append, initializeNewLayer_gens]
    simp [initializeNewLayer_id, hid]
  obtain ⟨hsg, hsinv⟩ := hsub
    { (initializeNewLayer st2 st2.gens.length g1).2.1 with
      gens := (initializeNewLayer st2 st2.gens.length g1).2.1.gens ++
        [(initializeNewLayer st2 st2.gens.length g1).2.2] } hinv4 hrc
  rw [hr]
  constructor
  · simp only [Bool.false_eq_true, if_neg, not_false_iff]
    rw [hsg, hg4]
    simp
  · simp only [Bool.false_eq_true, if_neg, not_false_iff]
    exact hsinv

mutual
theorem matchSingleLayer_dfs : ∀ (n : NewLayer) (st : PassSt),
    mapInv st → renderOkOne n = true →
    (matchSingleLayer n st).2.gens.map LayerObj.id
        = st.gens.map LayerObj.id ++ dfsIdsOne n ∧
      mapInv (matchSingleLayer n st).2
  | NewLayer.node nid np nb nch, st => by
    intro hinv hrok
    have hr : nb.renderThrows = false := by
      simp [renderOkOne] at hrok
      exact hrok.1
    have hrc : renderOk nch = true := by
      simp [renderOkOne] at hrok
      exact hrok.2
    simp only [matchSingleLayer]
    cases hl : lookupMap st.oldMap nid with
    | none =>
      simp only [hl]
      exact matchCont_dfs nid nb nch _ _ rfl hr hrc (mapInv_consume st nid hinv)
        (fun st' h1 h2 => matchSublayers_dfs nch st' h1 h2)
    | some oi =>
      cases oi with
      | none =>
        simp only [hl]
        exact matchCont_dfs nid nb nch _ _ rfl hr hrc (mapInv_consume st nid hinv)
          (fun st' h1 h2 => matchSublayers_dfs nch st' h1 h2)
      | some i =>
        simp only [hl]
        obtain ⟨ol, hol, hst⟩ := hinv.1 nid i hl
        obtain ⟨tok, htok⟩ := Option.isSome_iff_exists.mp hst
        have htr : transferLayerState { st with oldMap := setMap st.oldMap nid none } i
            st.gens.length { id := nid, props := np, beh := nb }
            = Except.ok
              ({ { st with oldMap := setMap st.oldMap nid none } with
                  olds := st.olds.set i { ol with state := none },
                  states := setStateLayer st.states tok (LayerRef.newL st.gens.length) },
               { id := nid, props := np, beh := nb, oldProps := some ol.props,
                 state := some tok }) := by
          simp [transferLayerState, hol, htok]
        rw [htr]
        have hinv2 : mapInv
            { st with oldMap := setMap st.oldMap nid none,
                      olds := st.olds.set i { ol with state := none },
                      states := setStateLayer st.states tok (LayerRef.newL st.gens.length) } :=
          mapInv_transfer st nid i { ol with state := none } _ hinv hl
        have hcont := matchCont_dfs nid nb nch
          { { st with oldMap := setMap st.oldMap nid none } with
            olds := st.olds.set i { ol with state := none },
            states := setStateLayer st.states tok (LayerRef.newL st.gens.length) }
          { id := nid, props := np, beh := nb, oldProps := some ol.props, state := some tok }
          rfl hr hrc hinv2 (fun st' h1 h2 => matchSublayers_dfs nch st' h1 h2)
        exact hcont

theorem matchSublayers_dfs : ∀ (ns : NewForest) (st : PassSt),
    mapInv st → renderOk ns = true →
    (matchSublayers ns st).2.gens.map LayerObj.id
        = st.gens.map LayerObj.id ++ dfsIds ns ∧
      mapInv (matchSublayers ns st).2
  | NewForest.nil, st => by
    intro hinv _
    exact ⟨by simp [matchSublayers, dfsIds], hinv⟩
  | NewForest.cons n rest, st => by
    intro hinv hrok
    have hr1 : renderOkOne n = true := by
      simp [renderOk] at hrok
      exact hrok.1
    have hr2 : renderOk rest = true := by
      simp [renderOk] at hrok
      exact hrok.2
    obtain ⟨hg1, hi1⟩ := matchSingleLayer_dfs n st hinv hr1
    obtain ⟨hg2, hi2⟩ := matchSublayers_dfs rest (matchSingleLayer n st).2 hi1 hr2
    refine ⟨?_, ?_⟩
    · simp only [matchSublayers]
      rw [hg2, hg1]
      simp [dfsIds]
    · simp only [matchSublayers]
      exact hi2
end

theorem mkOldLayerMapGo_preserves :
    ∀ (rest : List LayerObj) (i : Nat) (m : List (Nat × Option Nat)) (k : Nat) (v : Option Nat),
    lookupMap m k = some v → lookupMap (mkOldLayerMapGo i rest m) k = some v
  | [], _, _, _, _, h => h
  | ol :: rest, i, m, k, v, h => by
    unfold mkOldLayerMapGo
    by_cases hm : (lookupMap m ol.id).isSome = true
    · rw [if_pos hm]
      exact mkOldLayerMapGo_preserves rest (i + 1) m k v h
    · rw [if_neg hm]
      apply mkOldLayerMapGo_preserves
      by_cases hk : k = ol.id
      · subst hk
        rw [h] at hm
        simp at hm
      · rw [lookupMap_setMap_ne _ _ _ _ hk]
        exact h

theorem mkOldLayerMapGo_sound (Q : Nat → Nat → Prop) :
    ∀ (rest : List LayerObj) (i : Nat) (m : List (Nat × Option Nat)),
    (∀ k j, lookupMap m k = some (some j) → Q k j) →
    (∀ d ol, rest[d]? = some ol → Q ol.id (i + d)) →
    ∀ k j, lookupMap (mkOldLayerMapGo i rest m) k = some (some j) → Q k j
  | [], _, _, hm, _, k, j, h => hm k j h
  | ol :: rest, i, m, hm, hrest, k, j, h => by
    rw [mkOldLayerMapGo] at h
    by_cases hp : (lookupMap m ol.id).isSome = true
    · rw [if_pos hp] at h
      refine mkOldLayerMapGo_sound Q rest (i + 1) m hm ?_ k j h
      intro d ol' hd
      have := hrest (d + 1) ol' (by simpa using hd)
      simpa [Nat.add_assoc, Nat.add_comm 1 d] using this
    · rw [if_neg hp] at h
      refine mkOldLayerMapGo_sound Q rest (i + 1) (setMap m ol.id (some i)) ?_ ?_ k j h
      · intro k' j' hk'
        by_cases hko : k' = ol.id
        · subst hko
          rw [lookupMap_setMap_self] at hk'
          have hj' : j' = i := by
            cases hk'
            rfl
          subst hj'
          have := hrest 0 ol (by simp)
          simpa using this
        · rw [lookupMap_setMap_ne _ _ _ _ hko] at hk'
          exact hm k' j' hk'
      · intro d ol' hd
        have := hrest (d + 1) ol' (by simpa using hd)
        simpa [Nat.add_assoc, Nat.add_comm 1 d] using this

theorem mkOldLayerMapGo_inj :
    ∀ (rest : List LayerObj) (i : Nat) (m : List (Nat × Option Nat)),
    (∀ k j, lookupMap m k = some (some j) → j < i) →
    (∀ k1 k2 j, lookupMap m k1 = some (some j) → lookupMap m k2 = some (some j) → k1 = k2) →
    (∀ k j, lookupMap (mkOldLayerMapGo i rest m) k = some (some j) → j < i + rest.length) ∧
    (∀ k1 k2 j, lookupMap (mkOldLayerMapGo i rest m) k1 = some (some j) →
      lookupMap (mkOldLayerMapGo i rest m) k2 = some (some j) → k1 = k2)
  | [], i, m, hb, hinj => by
    refine ⟨fun k j h => ?_, hinj⟩
    have := hb k j h
    simpa using Nat.lt_add_right 0 this
  | ol :: rest, i, m, hb, hinj => by
    rw [mkOldLayerMapGo]
    by_cases hp : (lookupMap m ol.id).isSome = true
    · rw [if_pos hp]
      have := mkOldLayerMapGo_inj rest (i + 1) m
        (fun k j h => Nat.lt_succ_of_lt (hb k j h)) hinj
      refine ⟨fun k j h => ?_, this.2⟩
      have h2 := this.1 k j h
      simp only [List.length_cons]
      omega
    · rw [if_neg hp]
      have hb' : ∀ k j, lookupMap (setMap m ol.id (some i)) k = some (some j) → j < i + 1 := by
        intro k j h
        by_cases hko : k = ol.id
        · subst hko
          rw [lookupMap_setMap_self] at h
          cases h
          omega
        · rw [lookupMap_setMap_ne _ _ _ _ hko] at h
          exact Nat.lt_succ_of_lt (hb k j h)
      have hinj' : ∀ k1 k2 j, lookupMap (setMap m ol.id (some i)) k1 = some (some j) →
          lookupMap (setMap m ol.id (some i)) k2 = some (some j) → k1 = k2 := by
        intro k1 k2 j h1 h2
        by_cases h1o : k1 = ol.id
        · subst h1o
          rw [lookupMap_setMap_self] at h1
          have hj : j = i := by
            cases h1
            rfl
          subst hj
          by_cases h2o : k2 = ol.id
          · rw [h2o]
          · rw [lookupMap_setMap_ne _ _ _ _ h2o] at h2
            have := hb k2 j h2
            omega
        · rw [lookupMap_setMap_ne _ _ _ _ h1o] at h1
          by_cases h2o : k2 = ol.id
          · subst h2o
            rw [lookupMap_setMap_self] at h2
            have hj : j = i := by
              cases h2
              rfl
            subst hj
            have := hb k1 j h1
            omega
          · rw [lookupMap_setMap_ne _ _ _ _ h2o] at h2
            exact hinj k1 k2 j h1 h2
      have := mkOldLayerMapGo_inj rest (i + 1) (setMap m ol.id (some i)) hb' hinj'
      refine ⟨fun k j h => ?_, this.2⟩
      have h2 := this.1 k j h
      simp only [List.length_cons]
      omega

theorem mkOldLayerMap_mapInv (olds : List LayerObj)
    (hst : olds.all (fun ol => ol.state.isSome) = true) :
    mapInv { mkInitSt olds with oldMap := mkOldLayerMap olds } := by
  constructor
  · intro k i hk
    refine mkOldLayerMapGo_sound
      (fun _ j => ∃ ol, olds[j]? = some ol ∧ ol.state.isSome = true)
      olds 0 [] (fun k' j' h => by cases h) ?_ k i hk
    intro d ol hd
    refine ⟨ol, by simpa using hd, ?_⟩
    exact List.all_eq_true.mp hst ol (List.getElem?_mem hd)
  · intro k1 k2 i hk1 hk2
    have := mkOldLayerMapGo_inj olds 0 []
      (fun k j h => by cases h) (fun k1 k2 j h1 h2 => by cases h1)
    exact this.2 k1 k2 i hk1 hk2

theorem initNewLayersGo_gens_ids (idxs : List Nat) :
    ∀ (st : PassSt),
    (initNewLayersGo st idxs).2.gens.map LayerObj.id = st.gens.map LayerObj.id := by
  induction idxs with
  | nil => intro st; simp [initNewLayersGo]
  | cons i rest ih =>
    intro st
    unfold initNewLayersGo
    cases hg : st.gens[i]? with
    | none => exact ih st
    | some g =>
      rw [ih]
      simp only []
      rw [List.map_set, initializeNewLayer_gens, initializeNewLayer_id]
      apply set_getElem?_self
      rw [List.getElem?_map, hg]
      rfl

/-- C7: when no `renderLayers` callback fails and every old layer holds
state (so no transfer assertion fires), the generated forest is exactly the
depth-first, left-to-right flattening of the new forest: each layer is
appended in discovery order, immediately followed by the flattening of the
children produced by its `renderLayers`, before any later sibling. -/
theorem c7_dfs_order (olds : List LayerObj) (news : NewForest)
    (hst : olds.all (fun ol => ol.state.isSome) = true)
    (hr : renderOk news = true) :
    (updateLayersCore olds news).2.gens.map LayerObj.id = dfsIds news := by
  have hinv := mkOldLayerMap_mapInv olds hst
  obtain ⟨hg, _⟩ := matchSublayers_dfs news
    { mkInitSt olds with oldMap := mkOldLayerMap olds } hinv hr
  have hphase : (updateLayersCore olds news).2.gens.map LayerObj.id
      = (matchLayers news (mkInitSt olds)).2.gens.map LayerObj.id := by
    show (initializeNewLayers _).2.gens.map _ = _
    unfold initializeNewLayers
    rw [initNewLayersGo_gens_ids]
  rw [hphase]
  have : (matchLayers news (mkInitSt olds)).2
      = (matchSublayers news { mkInitSt olds with oldMap := mkOldLayerMap olds }).2 := rfl
  rw [this, hg]
  simp [mkInitSt]

/-- C7 witness: a nested forest (a parent producing a child that matches an
old layer, then a sibling) flattens depth first. -/
theorem c7_witness :
    (updateLayersCore oldId2 newsNested).2.gens.map LayerObj.id = dfsIds newsNested :=
  c7_dfs_order oldId2 newsNested (by decide) (by decide)

/-! ### C8: resubmitting the same forest -/

theorem mkOldLayerMapGo_complete :
    ∀ (rest : List LayerObj) (i : Nat) (m : List (Nat × Option Nat)),
    (rest.map LayerObj.id).Nodup →
    (∀ (d : Nat) (ol : LayerObj), rest[d]? = some ol → lookupMap m ol.id = none) →
    ∀ (d : Nat) (ol : LayerObj), rest[d]? = some ol →
      lookupMap (mkOldLayerMapGo i rest m) ol.id = some (some (i + d))
  | [], _, _, _, _, d, ol, hd => by simp at hd
  | ol0 :: rest, i, m, hnd, hfresh, d, ol, hd => by
    rw [mkOldLayerMapGo]
    have hm0 : lookupMap m ol0.id = none := hfresh 0 ol0 (by simp)
    rw [if_neg (by simp [hm0])]
    have hnd' := hnd
    simp only [List.map_cons] at hnd'
    have hnotin : ol0.id ∉ rest.map LayerObj.id := (List.nodup_cons.mp hnd').1
    cases d with
    | zero =>
      have hol : ol0 = ol := by simpa using hd
      subst hol
      have := mkOldLayerMapGo_preserves rest (i + 1) (setMap m ol0.id (some i)) ol0.id
        (some i) (lookupMap_setMap_self m ol0.id (some i))
      simpa using this
    | succ d' =>
      have hd' : rest[d']? = some ol := by simpa using hd
      have hfresh' : ∀ (e : Nat) (ol' : LayerObj), rest[e]? = some ol' →
          lookupMap (setMap m ol0.id (some i)) ol'.id = none := by
        intro e ol' he
        have hne : ol'.id ≠ ol0.id := by
          intro heq
          exact hnotin (heq ▸ List.mem_map_of_mem LayerObj.id (List.getElem?_mem he))
        rw [lookupMap_setMap_ne _ _ _ _ hne]
        exact hfresh (e + 1) ol' (by simpa using he)
      have := mkOldLayerMapGo_complete rest (i + 1) (setMap m ol0.id (some i))
        (List.nodup_cons.mp hnd').2 hfresh' d' ol hd'
      rw [this]
      congr 2
      omega

theorem matchSingleLayer_matched_eval (nid nprops : Nat) (st : PassSt) (i : Nat)
    (ol : LayerObj) (tok : Nat)
    (hl : lookupMap st.oldMap nid = some (some i))
    (ho : st.olds[i]? = some ol) (htok : ol.state = some tok) :
    matchSingleLayer (NewLayer.node nid nprops {} NewForest.nil) st
      = (none,
         { st with oldMap := setMap st.oldMap nid none,
                   olds := st.olds.set i { ol with state := none },
                   states := setStateLayer st.states tok (LayerRef.newL st.gens.length),
                   gens := st.gens ++ [{ id := nid, props := nprops, beh := {},
                                         oldProps := some ol.props, state := some tok }] }) := by
  simp only [matchSingleLayer, hl]
  have htr : transferLayerState { st with oldMap := setMap st.oldMap nid none } i
      st.gens.length { id := nid, props := nprops, beh := {} }
      = Except.ok
        ({ { st with oldMap := setMap st.oldMap nid none } with
            olds := st.olds.set i { ol with state := none },
            states := setStateLayer st.states tok (LayerRef.newL st.gens.length) },
         { id := nid, props := nprops, beh := {}, oldProps := some ol.props,
           state := some tok }) := by
    simp [transferLayerState, ho, htok]
  rw [htr]
  simp [initializeNewLayer, matchSublayers]

theorem matchSublayers_same :
    ∀ (ns : List LayerObj) (st : PassSt),
    (ns.map LayerObj.id).Nodup →
    (∀ (d : Nat) (ol : LayerObj), ns[d]? = some ol → ∃ i ol' tok,
      lookupMap st.oldMap ol.id = some (some i) ∧ st.olds[i]? = some ol' ∧
      ol'.state = some tok) →
    (∀ k1 k2 i, lookupMap st.oldMap k1 = some (some i) →
      lookupMap st.oldMap k2 = some (some i) → k1 = k2) →
    (matchSublayers (mkSameForest ns) st).2.events = st.events ∧
    (∃ gensNew, (matchSublayers (mkSameForest ns) st).2.gens = st.gens ++ gensNew ∧
      gensNew.map LayerObj.id = ns.map LayerObj.id ∧
      ∀ g ∈ gensNew, g.oldProps.isSome = true ∧ g.state.isSome = true ∧
        g.beh = ({} : Beh)) ∧
    (∀ (d : Nat) (ol : LayerObj), ns[d]? = some ol → ∀ i, lookupMap st.oldMap ol.id = some (some i) →
      ∃ ol', st.olds[i]? = some ol' ∧
        (matchSublayers (mkSameForest ns) st).2.olds[i]? = some { ol' with state := none }) ∧
    (∀ i : Nat, (∀ (d : Nat) (ol : LayerObj), ns[d]? = some ol → lookupMap st.oldMap ol.id ≠ some (some i)) →
      (matchSublayers (mkSameForest ns) st).2.olds[i]? = st.olds[i]?)
  | [], st => by
    intro _ _ _
    refine ⟨rfl, ⟨[], by simp [mkSameForest, matchSublayers], by simp, by simp⟩, ?_, ?_⟩
    · intro d ol hd
      simp at hd
    · intro i _
      rfl
  | ol0 :: rest, st => by
    intro hnd h2 h3
    obtain ⟨i0, ol', tok, hl0, ho0, htok0⟩ := h2 0 ol0 (by simp)
    have heval := matchSingleLayer_matched_eval ol0.id ol0.props st i0 ol' tok hl0 ho0 htok0
    have hnd' := hnd
    simp only [List.map_cons] at hnd'
    have hnotin : ol0.id ∉ rest.map LayerObj.id := (List.nodup_cons.mp hnd').1
    have hstep : matchSublayers (mkSameForest (ol0 :: rest)) st
        = (((none : Option JSError) <|>
            (matchSublayers (mkSameForest rest) (matchSingleLayer
              (NewLayer.node ol0.id ol0.props {} NewForest.nil) st).2).1),
           (matchSublayers (mkSameForest rest) (matchSingleLayer
              (NewLayer.node ol0.id ol0.props {} NewForest.nil) st).2).2) := by
      rw [mkSameForest]
      rw [matchSublayers]
      rw [heval]
    set st4 : PassSt :=
      { st with oldMap := setMap st.oldMap ol0.id none,
                olds := st.olds.set i0 { ol' with state := none },
                states := setStateLayer st.states tok (LayerRef.newL st.gens.length),
                gens := st.gens ++ [{ id := ol0.id, props := ol0.props, beh := {},
                                      oldProps := some ol'.props, state := some tok }] }
      with hst4
    have hst4eq : (matchSingleLayer (NewLayer.node ol0.id ol0.props {} NewForest.nil) st).2
        = st4 := by rw [heval]
    have hresti : ∀ (d : Nat) (ol : LayerObj), rest[d]? = some ol → ∀ i,
        lookupMap st.oldMap ol.id = some (some i) → i ≠ i0 := by
      intro d ol hd i hli hii
      subst hii
      have : ol.id = ol0.id := h3 ol.id ol0.id i hli hl0
      exact hnotin (this ▸ List.mem_map_of_mem LayerObj.id (List.getElem?_mem hd))
    have hrestid : ∀ (d : Nat) (ol : LayerObj), rest[d]? = some ol → ol.id ≠ ol0.id := by
      intro d ol hd heq
      exact hnotin (heq ▸ List.mem_map_of_mem LayerObj.id (List.getElem?_mem hd))
    have h2' : ∀ (d : Nat) (ol : LayerObj), rest[d]? = some ol → ∃ i ol'' tok',
        lookupMap st4.oldMap ol.id = some (some i) ∧ st4.olds[i]? = some ol'' ∧
        ol''.state = some tok' := by
      intro d ol hd
      obtain ⟨i, ol'', tok', hli, hoi, htoki⟩ := h2 (d + 1) ol (by simpa using hd)
      have hne : ol.id ≠ ol0.id := hrestid d ol hd
      have hii : i ≠ i0 := hresti d ol hd i hli
      refine ⟨i, ol'', tok', ?_, ?_, htoki⟩
      · rw [hst4]
        simp only []
        rw [lookupMap_setMap_ne _ _ _ _ hne]
        exact hli
      · rw [hst4]
        simp only []
        rw [List.getElem?_set_ne (Ne.symm hii)]
        exact hoi
    have h3' : ∀ k1 k2 i, lookupMap st4.oldMap k1 = some (some i) →
        lookupMap st4.oldMap k2 = some (some i) → k1 = k2 := by
      intro k1 k2 i hk1 hk2
      rw [hst4] at hk1 hk2
      simp only [] at hk1 hk2
      by_cases hn1 : k1 = ol0.id
      · subst hn1
        rw [lookupMap_setMap_self] at hk1
        cases hk1
      · by_cases hn2 : k2 = ol0.id
        · subst hn2
          rw [lookupMap_setMap_self] at hk2
          cases hk2
        · rw [lookupMap_setMap_ne _ _ _ _ hn1] at hk1
          rw [lookupMap_setMap_ne _ _ _ _ hn2] at hk2
          exact h3 k1 k2 i hk1 hk2
    obtain ⟨ihev, ⟨gensNew, ihgens, ihgid, ihmem⟩, ihd1, ihd2⟩ :=
      matchSublayers_same rest st4 (List.nodup_cons.mp hnd').2 h2' h3'
    have hfinal : (matchSublayers (mkSameForest (ol0 :: rest)) st).2
        = (matchSublayers (mkSameForest rest) st4).2 := by
      rw [hstep]
      simp only []
      rw [hst4eq]
    refine ⟨?_, ?_, ?_, ?_⟩
    · rw [hfinal, ihev, hst4]
    · refine ⟨{ id := ol0.id, props := ol0.props, beh := {},
                oldProps := some ol'.props, state := some tok } :: gensNew, ?_, ?_, ?_⟩
      · rw [hfinal, ihgens, hst4]
        simp
      · simp [ihgid]
      · intro g hg
        rcases List.mem_cons.mp hg with hg0 | hgr
        · subst hg0
          exact ⟨rfl, rfl, rfl⟩
        · exact ihmem g hgr
    · intro d ol hd i hli
      cases d with
      | zero =>
        have hol : ol0 = ol := by simpa using hd
        subst hol
        have hii : i = i0 := by
          rw [hli] at hl0
          cases hl0
          rfl
        subst hii
        refine ⟨ol', ho0, ?_⟩
        rw [hfinal]
        have hrest0 : ∀ (d : Nat) (ol2 : LayerObj), rest[d]? = some ol2 →
            lookupMap st4.oldMap ol2.id ≠ some (some i) := by
          intro d ol2 hd2 hcon
          have hne : ol2.id ≠ ol0.id := hrestid d ol2 hd2
          rw [hst4] at hcon
          simp only [] at hcon
          rw [lookupMap_setMap_ne _ _ _ _ hne] at hcon
          exact hresti d ol2 hd2 i hcon rfl
        rw [ihd2 i hrest0, hst4]
        simp only []
        rw [List.getElem?_set_self']
        rw [ho0]
        rfl
      | succ d' =>
        have hd' : rest[d']? = some ol := by simpa using hd
        have hne : ol.id ≠ ol0.id := hrestid d' ol hd'
        have hii : i ≠ i0 := hresti d' ol hd' i hli
        have hli4 : lookupMap st4.oldMap ol.id = some (some i) := by
          rw [hst4]
          simp only []
          rw [lookupMap_setMap_ne _ _ _ _ hne]
          exact hli
        obtain ⟨ol'', ho4, hfin⟩ := ihd1 d' ol hd' i hli4
        have ho4' : st.olds[i]? = some ol'' := by
          rw [hst4] at ho4
          simp only [] at ho4
          rw [List.getElem?_set_ne (Ne.symm hii)] at ho4
          exact ho4
        refine ⟨ol'', ho4', ?_⟩
        rw [hfinal]
        exact hfin
    · intro i hno
      have hii : i ≠ i0 := by
        intro hii
        subst hii
        exact hno 0 ol0 (by simp) hl0
      have hno' : ∀ (d : Nat) (ol : LayerObj), rest[d]? = some ol →
          lookupMap st4.oldMap ol.id ≠ some (some i) := by
        intro d ol hd hcon
        have hne : ol.id ≠ ol0.id := hrestid d ol hd
        rw [hst4] at hcon
        simp only [] at hcon
        rw [lookupMap_setMap_ne _ _ _ _ hne] at hcon
        exact hno (d + 1) ol (by simpa using hd) hcon
      rw [hfinal, ihd2 i hno', hst4]
      simp only []
      rw [List.getElem?_set_ne (Ne.symm hii)]

theorem finalizeOldLayersAux_stateless (olds : List LayerObj)
    (h : ∀ ol ∈ olds, ol.state = none) :
    finalizeOldLayersAux none olds = (none, olds, []) := by
  induction olds with
  | nil => rfl
  | cons ol rest ih =>
    have h0 : ol.state = none := h ol (by simp)
    simp [finalizeOldLayersAux, finalizeLayer, h0,
      ih (fun ol' hml => h ol' (List.mem_cons_of_mem _ hml))]

theorem updateMatchedLayersAux_all (gens : List LayerObj)
    (h : ∀ g ∈ gens, g.oldProps.isSome = true ∧ g.beh.updateThrows = false) :
    updateMatchedLayersAux none gens
      = (none, gens.map (fun g => Event.updateEv g.id)) := by
  induction gens with
  | nil => rfl
  | cons g rest ih =>
    obtain ⟨hp, hu⟩ := h g (by simp)
    obtain ⟨op, hop⟩ := Option.isSome_iff_exists.mp hp
    simp [updateMatchedLayersAux, updateLayer, hop, hu,
      ih (fun g' hm => h g' (List.mem_cons_of_mem _ hm))]

theorem initNewLayersGo_noop (idxs : List Nat) : ∀ (st : PassSt),
    (∀ g ∈ st.gens, g.state.isSome = true) →
    initNewLayersGo st idxs = (none, st) := by
  induction idxs with
  | nil =>
    intro st _
    rfl
  | cons i rest ih =>
    intro st h
    unfold initNewLayersGo
    cases hg : st.gens[i]? with
    | none => exact ih st h
    | some g =>
      obtain ⟨tok, htok⟩ := Option.isSome_iff_exists.mp (h g (List.getElem?_mem hg))
      have hinit : initializeNewLayer st i g = (none, st, g) := by
        simp [initializeNewLayer, htok]
      simp only [hinit]
      rw [set_getElem?_self st.gens i g hg]
      have hrec : ({ olds := st.olds, oldMap := st.oldMap, gens := st.gens,
                     states := st.states, nextTok := st.nextTok,
                     events := st.events } : PassSt) = st := rfl
      rw [hrec, ih st h]
      rfl

/-- C8: resubmitting the live forest (same ids, unchanged props, flat,
well-behaved callbacks) invokes the update callback of every layer, in
order, and invokes no initialize and no finalize callback: the trace of the
pass is exactly one update event per layer. -/
theorem c8_idempotent_updates (olds : List LayerObj)
    (hids : (olds.map LayerObj.id).Nodup)
    (hst : olds.all (fun ol => ol.state.isSome) = true) :
    (updateLayersCore olds (mkSameForest olds)).2.events
      = olds.map (fun ol => Event.updateEv ol.id) := by
  have hstm : ∀ ol ∈ olds, ol.state.isSome = true := List.all_eq_true.mp hst
  have hcomp : ∀ (d : Nat) (ol : LayerObj), olds[d]? = some ol →
      lookupMap (mkOldLayerMap olds) ol.id = some (some d) := by
    intro d ol hd
    have := mkOldLayerMapGo_complete olds 0 [] hids
      (fun _ _ _ => rfl) d ol hd
    simpa using this
  have hinv := mkOldLayerMap_mapInv olds hst
  have h2 : ∀ (d : Nat) (ol : LayerObj), olds[d]? = some ol → ∃ i ol' tok,
      lookupMap ({ mkInitSt olds with oldMap := mkOldLayerMap olds } : PassSt).oldMap ol.id
        = some (some i) ∧
      ({ mkInitSt olds with oldMap := mkOldLayerMap olds } : PassSt).olds[i]? = some ol' ∧
      ol'.state = some tok := by
    intro d ol hd
    obtain ⟨tok, htok⟩ := Option.isSome_iff_exists.mp (hstm ol (List.getElem?_mem hd))
    refine ⟨d, ol, tok, ?_, ?_, htok⟩
    · simpa using hcomp d ol hd
    · simpa [mkInitSt] using hd
  obtain ⟨hev, ⟨gensNew, hgens, hgid, hmem⟩, hd1, hd2⟩ :=
    matchSublayers_same olds { mkInitSt olds with oldMap := mkOldLayerMap olds }
      hids h2 hinv.2
  have hstateless : ∀ ol' ∈ (matchSublayers (mkSameForest olds)
      { mkInitSt olds with oldMap := mkOldLayerMap olds }).2.olds, ol'.state = none := by
    intro ol' hmem'
    obtain ⟨j, hj⟩ := List.getElem?_of_mem hmem'
    by_cases hlt : j < olds.length
    · rcases holj : olds[j]? with _ | olj
      · rw [List.getElem?_eq_none_iff] at holj
        omega
      · obtain ⟨ol'', ho'', hfin⟩ := hd1 j olj holj j (by simpa using hcomp j olj holj)
        rw [hj] at hfin
        have : ol' = { ol'' with state := none } := by
          cases hfin
          rfl
        rw [this]
    · have hno : ∀ (d : Nat) (ol : LayerObj), olds[d]? = some ol →
          lookupMap ({ mkInitSt olds with oldMap := mkOldLayerMap olds } : PassSt).oldMap ol.id
            ≠ some (some j) := by
        intro d ol hd hcon
        have hdlt : d < olds.length := by
          by_contra hge
          rw [List.getElem?_eq_none_iff.mpr (Nat.le_of_not_lt hge)] at hd
          cases hd
        have := hcomp d ol hd
        simp only [] at hcon
        rw [this] at hcon
        have : d = j := by
          cases hcon
          rfl
        omega
      rw [hd2 j hno] at hj
      have : olds[j]? = none := List.getElem?_eq_none_iff.mpr (Nat.le_of_not_lt hlt)
      simp only [mkInitSt] at hj
      rw [this] at hj
      cases hj
  have hf := finalizeOldLayersAux_stateless _ hstateless
  have hgensM : (matchSublayers (mkSameForest olds)
      { mkInitSt olds with oldMap := mkOldLayerMap olds }).2.gens = gensNew := by
    rw [hgens]
    simp [mkInitSt]
  have hmemprops : ∀ g ∈ gensNew, g.oldProps.isSome = true ∧ g.beh.updateThrows = false := by
    intro g hg
    obtain ⟨hp1, hp2, hp3⟩ := hmem g hg
    refine ⟨hp1, ?_⟩
    rw [hp3]
  have hu := updateMatchedLayersAux_all gensNew hmemprops
  have hstates : ∀ g ∈ gensNew, g.state.isSome = true := by
    intro g hg
    exact (hmem g hg).2.1
  have hM : (matchLayers (mkSameForest olds) (mkInitSt olds)).2
      = (matchSublayers (mkSameForest olds)
          { mkInitSt olds with oldMap := mkOldLayerMap olds }).2 := rfl
  show (initializeNewLayers _).2.events = _
  unfold initializeNewLayers
  rw [hM]
  rw [hf]
  simp only [mkInitSt] at hgensM hev
  simp only [mkInitSt, List.append_nil, List.nil_append]
  simp only [hgensM, hu, hev, List.append_nil, List.nil_append]
  rw [initNewLayersGo_noop _ _ (fun g hg => hstates g hg)]
  simp only []
  have hmaps : gensNew.map (fun g => Event.updateEv g.id)
      = (gensNew.map LayerObj.id).map Event.updateEv := by
    rw [List.map_map]
    rfl
  rw [hmaps, hgid, List.map_map]
  rfl

/-- C8 witness: three live layers resubmitted unchanged produce exactly
three update events and nothing else. -/
theorem c8_witness :
    (updateLayersCore threeOlds (mkSameForest threeOlds)).2.events
      = threeOlds.map (fun ol => Event.updateEv ol.id) :=
  c8_idempotent_updates threeOlds (by decide) (by decide)

/-! ### C5: lifecycle failures do not change the installed forest -/

theorem matchCont_sim (nid : Nat) (nbA nbB : Beh) (nchA nchB : NewForest)
    (hrt : nbA.renderThrows = nbB.renderThrows)
    (stA stB : PassSt) (g1A g1B : LayerObj) (hidA : g1A.id = nid) (hidB : g1B.id = nid)
    (hrel : simRel stA stB)
    (hsub : ∀ sA sB : PassSt, simRel sA sB →
      simRel (matchSublayers nchA sA).2 (matchSublayers nchB sB).2) :
    simRel
      (if nbA.renderThrows = true then
          ((some (JSError.renderErr nid) : Option JSError),
            { (initializeNewLayer stA stA.gens.length g1A).2.1 with
              gens := (initializeNewLayer stA stA.gens.length g1A).2.1.gens ++
                [(initializeNewLayer stA stA.gens.length g1A).2.2] })
        else
          (none, (matchSublayers nchA
            { (initializeNewLayer stA stA.gens.length g1A).2.1 with
              gens := (initializeNewLayer stA stA.gens.length g1A).2.1.gens ++
                [(initializeNewLayer stA stA.gens.length g1A).2.2] }).2)).2
      (if nbB.renderThrows = true then
          ((some (JSError.renderErr nid) : Option JSError),
            { (initializeNewLayer stB stB.gens.length g1B).2.1 with
              gens := (initializeNewLayer stB stB.gens.length g1B).2.1.gens ++
                [(initializeNewLayer stB stB.gens.length g1B).2.2] })
        else
          (none, (matchSublayers nchB
            { (initializeNewLayer stB stB.gens.length g1B).2.1 with
              gens := (initializeNewLayer stB stB.gens.length g1B).2.1.gens ++
                [(initializeNewLayer stB stB.gens.length g1B).2.2] }).2)).2 := by
  obtain ⟨hm, ho, hg⟩ := hrel
  have hrelPush : simRel
      ({ (initializeNewLayer stA stA.gens.length g1A).2.1 with
         gens := (initializeNewLayer stA stA.gens.length g1A).2.1.gens ++
           [(initializeNewLayer stA stA.gens.length g1A).2.2] } : PassSt)
      ({ (initializeNewLayer stB stB.gens.length g1B).2.1 with
         gens := (initializeNewLayer stB stB.gens.length g1B).2.1.gens ++
           [(initializeNewLayer stB stB.gens.length g1B).2.2] } : PassSt) := by
    refine ⟨?_, ?_, ?_⟩
    · simp only []
      rw [initializeNewLayer_oldMap, initializeNewLayer_oldMap]
      exact hm
    · simp only []
      rw [initializeNewLayer_olds, initializeNewLayer_olds]
      exact ho
    · simp only []
      rw [List.map_append, List.map_append, initializeNewLayer_gens, initializeNewLayer_gens]
      rw [hg]
      simp [initializeNewLayer_id, hidA, hidB]
  rw [hrt]
  by_cases hb : nbB.renderThrows = true
  · rw [if_pos hb, if_pos hb]
    exact hrelPush
  · rw [if_neg hb, if_neg hb]
    exact hsub _ _ hrelPush

mutual
theorem matchSingleLayer_sim : ∀ (n : NewLayer) (stA stB : PassSt),
    simRel stA stB →
    simRel (matchSingleLayer (scrubLifeOne n) stA).2 (matchSingleLayer n stB).2
  | NewLayer.node nid np nb nch, stA, stB, hrel => by
    obtain ⟨hm, ho, hg⟩ := hrel
    simp only [scrubLifeOne, matchSingleLayer]
    cases hl : lookupMap stB.oldMap nid with
    | none =>
      have hlA : lookupMap stA.oldMap nid = none := by rw [hm, hl]
      simp only [hlA, hl]
      exact matchCont_sim nid _ nb (scrubLife nch) nch rfl _ _ _ _ rfl rfl
        ⟨congrArg (fun m => setMap m nid none) hm, ho, hg⟩
        (fun sA sB hr => matchSublayers_sim nch sA sB hr)
    | some oi =>
      cases oi with
      | none =>
        have hlA : lookupMap stA.oldMap nid = some none := by rw [hm, hl]
        simp only [hlA, hl]
        exact matchCont_sim nid _ nb (scrubLife nch) nch rfl _ _ _ _ rfl rfl
          ⟨congrArg (fun m => setMap m nid none) hm, ho, hg⟩
          (fun sA sB hr => matchSublayers_sim nch sA sB hr)
      | some i =>
        have hlA : lookupMap stA.oldMap nid = some (some i) := by rw [hm, hl]
        simp only [hlA, hl]
        have hoi : (stA.olds[i]?).map stripOld = (stB.olds[i]?).map stripOld := by
          rw [← List.getElem?_map stripOld, ← List.getElem?_map stripOld, ho]
        cases hB : stB.olds[i]? with
        | none =>
          have hA : stA.olds[i]? = none := by
            rw [hB] at hoi
            simpa using hoi
          have htrA : transferLayerState { stA with oldMap := setMap stA.oldMap nid none } i
              stA.gens.length { id := nid, props := np, beh := scrubBeh nb }
              = Except.error (JSError.assertNoState nid) := by
            simp [transferLayerState, hA]
          have htrB : transferLayerState { stB with oldMap := setMap stB.oldMap nid none } i
              stB.gens.length { id := nid, props := np, beh := nb }
              = Except.error (JSError.assertNoState nid) := by
            simp [transferLayerState, hB]
          rw [htrA, htrB]
          exact ⟨congrArg (fun m => setMap m nid none) hm, ho, hg⟩
        | some olB =>
          obtain ⟨olA, hA, hstrip⟩ : ∃ olA, stA.olds[i]? = some olA ∧
              stripOld olA = stripOld olB := by
            rw [hB] at hoi
            rcases hA : stA.olds[i]? with _ | olA
            · rw [hA] at hoi
              simp at hoi
            · rw [hA] at hoi
              simp only [Option.map_some'] at hoi
              exact ⟨olA, rfl, by injection hoi⟩
          have hidEq : olA.id = olB.id := congrArg Prod.fst hstrip
          have hpropsEq : olA.props = olB.props := congrArg (fun p => p.2.1) hstrip
          have hstateEq : olA.state = olB.state := congrArg (fun p => p.2.2) hstrip
          cases hsB : olB.state with
          | none =>
            have hsA : olA.state = none := by rw [hstateEq, hsB]
            have htrA : transferLayerState { stA with oldMap := setMap stA.oldMap nid none } i
                stA.gens.length { id := nid, props := np, beh := scrubBeh nb }
                = Except.error (JSError.assertNoState nid) := by
              simp [transferLayerState, hA, hsA]
            have htrB : transferLayerState { stB with oldMap := setMap stB.oldMap nid none } i
                stB.gens.length { id := nid, props := np, beh := nb }
                = Except.error (JSError.assertNoState nid) := by
              simp [transferLayerState, hB, hsB]
            rw [htrA, htrB]
            exact ⟨congrArg (fun m => setMap m nid none) hm, ho, hg⟩
          | some tok =>
            have hsA : olA.state = some tok := by rw [hstateEq, hsB]
            have htrA : transferLayerState { stA with oldMap := setMap stA.oldMap nid none } i
                stA.gens.length { id := nid, props := np, beh := scrubBeh nb }
                = Except.ok
                  ({ { stA with oldMap := setMap stA.oldMap nid none } with
                      olds := stA.olds.set i { olA with state := none },
                      states := setStateLayer stA.states tok (LayerRef.newL stA.gens.length) },
                   { id := nid, props := np, beh := scrubBeh nb,
                     oldProps := some olA.props, state := some tok }) := by
              simp [transferLayerState, hA, hsA]
            have htrB : transferLayerState { stB with oldMap := setMap stB.oldMap nid none } i
                stB.gens.length { id := nid, props := np, beh := nb }
                = Except.ok
                  ({ { stB with oldMap := setMap stB.oldMap nid none } with
                      olds := stB.olds.set i { olB with state := none },
                      states := setStateLayer stB.states tok (LayerRef.newL stB.gens.length) },
                   { id := nid, props := np, beh := nb,
                     oldProps := some olB.props, state := some tok }) := by
              simp [transferLayerState, hB, hsB]
            rw [htrA, htrB]
            refine matchCont_sim nid _ nb (scrubLife nch) nch rfl _ _ _ _ rfl rfl
              ⟨congrArg (fun m => setMap m nid none) hm, ?_, hg⟩
              (fun sA sB hr => matchSublayers_sim nch sA sB hr)
            simp only []
            rw [List.map_set, List.map_set, ho]
            have : stripOld { olA with state := none } = stripOld { olB with state := none } := by
              simp [stripOld, hidEq, hpropsEq]
            rw [this]

theorem matchSublayers_sim : ∀ (ns : NewForest) (stA stB : PassSt),
    simRel stA stB →
    simRel (matchSublayers (scrubLife ns) stA).2 (matchSublayers ns stB).2
  | NewForest.nil, stA, stB, hrel => by
    simpa [scrubLife, matchSublayers] using hrel
  | NewForest.cons n rest, stA, stB, hrel => by
    have h1 := matchSingleLayer_sim n stA stB hrel
    have h2 := matchSublayers_sim rest (matchSingleLayer (scrubLifeOne n) stA).2
      (matchSingleLayer n stB).2 h1
    simpa [scrubLife, matchSublayers] using h2
end

theorem mkOldLayerMapGo_scrub (olds : List LayerObj) :
    ∀ (i : Nat) (m : List (Nat × Option Nat)),
    mkOldLayerMapGo i (olds.map scrubOld) m = mkOldLayerMapGo i olds m := by
  induction olds with
  | nil => intro i m; rfl
  | cons ol rest ih =>
    intro i m
    simp only [List.map_cons, mkOldLayerMapGo]
    have hid : (scrubOld ol).id = ol.id := rfl
    rw [hid]
    by_cases hp : (lookupMap m ol.id).isSome = true
    · rw [if_pos hp, if_pos hp, ih]
    · rw [if_neg hp, if_neg hp, ih]

/-- C5 (amended): `updateLayers` installs the generated forest before
raising the first pass error, and failures of the initialize, update or
finalize callbacks never change which layers (ids, in order) make up the
installed forest: scrubbing all those failure flags produces a forest with
exactly the same ids.  Only a failure during matching itself — a throwing
`renderLayers` (kept by the scrubbing here) or a state-transfer assertion —
can drop the failing layer or its unprocessed subtree from the installed
forest, as the counterexample shows. -/
theorem c5_forest_invariance_amended (olds : List LayerObj) (news : NewForest) :
    (updateLayersCore (olds.map scrubOld) (scrubLife news)).2.gens.map LayerObj.id
      = (updateLayersCore olds news).2.gens.map LayerObj.id := by
  have hrel0 : simRel
      { mkInitSt (olds.map scrubOld) with oldMap := mkOldLayerMap (olds.map scrubOld) }
      { mkInitSt olds with oldMap := mkOldLayerMap olds } := by
    refine ⟨?_, ?_, rfl⟩
    · simp only [mkInitSt]
      exact mkOldLayerMapGo_scrub olds 0 []
    · simp only [mkInitSt]
      rw [List.map_map]
      rfl
  obtain ⟨_, _, hg⟩ := matchSublayers_sim news _ _ hrel0
  have hA : (updateLayersCore (olds.map scrubOld) (scrubLife news)).2.gens.map LayerObj.id
      = (matchLayers (scrubLife news) (mkInitSt (olds.map scrubOld))).2.gens.map LayerObj.id := by
    show (initializeNewLayers _).2.gens.map _ = _
    unfold initializeNewLayers
    rw [initNewLayersGo_gens_ids]
  have hB : (updateLayersCore olds news).2.gens.map LayerObj.id
      = (matchLayers news (mkInitSt olds)).2.gens.map LayerObj.id := by
    show (initializeNewLayers _).2.gens.map _ = _
    unfold initializeNewLayers
    rw [initNewLayersGo_gens_ids]
  rw [hA, hB]
  exact hg

end LayerManager
